import Mathlib

/-!
terraform-provider-mackerel: provider registry, protocol multiplexer and the service
lifecycle controller.

A shallow embedding of

* `internal/provider/provider.go` (the current-generation provider registry),
* `internal/provider/resource_mackerel_service.go` (the service lifecycle controller),
* `mackerel/provider.go` (`protoV5ProviderServer`, the protocol multiplexer),

followed by theorems about them.

Conventions of the embedding:

* a Go slice of strings is `Option (List String)`: `none` is the nil slice, `some l` a
  non-nil slice with elements `l`;
* a Go `map[string]V` is an association list, `delete` removes every entry of the key;
* a method with a pointer receiver or a `resp *Response` argument takes the old value
  and returns the new one;
* a Go panic is the `Outcome.panic` result.
-/

set_option autoImplicit false

namespace Mackerel

/-! ## Go runtime pieces -/

/-- A Go `[]string`; `none` is the nil slice. -/
abbrev GoSlice := Option (List String)

/-- Go's builtin `append(s, xs...)`: appending nothing to the nil slice gives the nil slice. -/
def goAppend (s : GoSlice) (xs : List String) : GoSlice :=
  match s, xs with
  | none, [] => none
  | none, x :: rest => some (x :: rest)
  | some l, ys => some (l ++ ys)

/-- Go's `slices.Contains(s, v)`; the nil slice contains nothing. -/
def slicesContains (s : GoSlice) (v : String) : Bool :=
  match s with
  | none => false
  | some l => l.contains v

/-- Result of running Go code that may panic. -/
inductive Outcome (α : Type) where
  | done (a : α)
  | panic (msg : String)
  deriving DecidableEq, Repr

/-! ## terraform-plugin-framework pieces -/

/-- Severity of a `diag.Diagnostic`. -/
inductive Severity where
  | error
  | warning
  deriving DecidableEq, Repr

/-- A `diag.Diagnostic`: severity, summary and detail. -/
structure Diagnostic where
  severity : Severity
  summary : String
  detail : String
  deriving DecidableEq, Repr

/-- The framework type `diag.Diagnostics`. -/
abbrev Diagnostics := List Diagnostic

/-- The framework function `diag.NewErrorDiagnostic`. -/
def NewErrorDiagnostic (summary detail : String) : Diagnostic :=
  { severity := Severity.error, summary := summary, detail := detail }

/-- The framework method `Diagnostics.Append`: diagnostics already contained are skipped. -/
def Diagnostics.Append (diags : Diagnostics) (more : Diagnostics) : Diagnostics :=
  more.foldl (fun acc d => if acc.contains d then acc else acc ++ [d]) diags

/-- The framework method `Diagnostics.AddError`. -/
def Diagnostics.AddError (diags : Diagnostics) (summary detail : String) : Diagnostics :=
  Diagnostics.Append diags [NewErrorDiagnostic summary detail]

/-- The framework method `Diagnostics.HasError`. -/
def Diagnostics.HasError (diags : Diagnostics) : Bool :=
  diags.any (fun d => d.severity == Severity.error)

/-- A `types.String`: null, unknown, or a known value. -/
inductive TFString where
  | null
  | unknown
  | value (s : String)
  deriving DecidableEq, Repr

/-- The framework method `types.String.ValueString`: the empty string for null and unknown. -/
def TFString.ValueString : TFString → String
  | TFString.value s => s
  | _ => ""

/-- A `resource.MetadataRequest` (also `datasource.MetadataRequest`). -/
structure MetadataRequest where
  ProviderTypeName : String
  deriving DecidableEq, Repr

/-- A `resource.MetadataResponse` (also `datasource.MetadataResponse`). -/
structure MetadataResponse where
  TypeName : String := ""
  deriving DecidableEq, Repr

/-! ## internal/mackerel: client handle and service model -/

/-- The `*mackerel.Client` handle; only its identity matters here. -/
structure Client where
  APIKey : String
  APIBase : String
  deriving DecidableEq, Repr

/-- The struct `mackerel.ServiceModel` (`id`, `name`, `memo`). -/
structure ServiceModel where
  ID : TFString
  Name : TFString
  Memo : TFString
  deriving DecidableEq, Repr

/-! ## internal/provider/provider.go -/

/-- The struct `MackerelProviderConfig`; a nil list enables all components. -/
structure MackerelProviderConfig where
  enabledResourceTypes : GoSlice := none
  disabledResourceTypes : GoSlice := none
  enabledDataSourceTypes : GoSlice := none
  disabledDataSourceTypes : GoSlice := none
  deriving DecidableEq, Repr

/-- The struct `mackerelProvider`. -/
structure mackerelProvider where
  config : MackerelProviderConfig
  deriving DecidableEq, Repr

/-- The four constructors of a `MackerelProviderOption`. -/
inductive MackerelProviderOption where
  | WithResourceEnabled (types : List String)
  | WithResourceDisabled (types : List String)
  | WithDataSourceEnabled (types : List String)
  | WithDataSourceDisabled (types : List String)
  deriving DecidableEq, Repr

/-- Running an option on the configuration (`opt(&config)`). -/
def MackerelProviderOption.run (opt : MackerelProviderOption) (mpc : MackerelProviderConfig) :
    MackerelProviderConfig :=
  match opt with
  | WithResourceEnabled types =>
      { mpc with enabledResourceTypes := goAppend mpc.enabledResourceTypes types }
  | WithResourceDisabled types =>
      { mpc with disabledResourceTypes := goAppend mpc.disabledResourceTypes types }
  | WithDataSourceEnabled types =>
      { mpc with enabledDataSourceTypes := goAppend mpc.enabledDataSourceTypes types }
  | WithDataSourceDisabled types =>
      { mpc with disabledDataSourceTypes := goAppend mpc.disabledDataSourceTypes types }

/-- The constant `providerTypeName`. -/
def providerTypeName : String := "mackerel"

/-- The function `New`: the zero configuration with every option run on it in order. -/
def New (opts : List MackerelProviderOption) : mackerelProvider :=
  { config := opts.foldl (fun config opt => opt.run config) {} }

/-- The struct `mackerelServiceResource`: a possibly nil client handle. -/
structure mackerelServiceResource where
  Client : Option Client := none
  deriving DecidableEq, Repr

/-- The method `mackerelServiceResource.Metadata`. -/
def mackerelServiceResource.Metadata (_r : mackerelServiceResource) (req : MetadataRequest)
    (resp : MetadataResponse) : MetadataResponse :=
  { resp with TypeName := req.ProviderTypeName ++ "_service" }

/-- The struct behind `NewMackerelServiceDataSource`: a possibly nil client handle. -/
structure mackerelServiceDataSource where
  Client : Option Client := none
  deriving DecidableEq, Repr

/-- Modelled from the spec: the data-source controller returned by
`NewMackerelServiceDataSource` is registered in `provider.go` but its source file is not
available. The baseline configuration migrates exactly one type (§4.5), so its `Metadata`
computes the same type name as the service resource: provider type name + `"_service"`. -/
def mackerelServiceDataSource.Metadata (_d : mackerelServiceDataSource) (req : MetadataRequest)
    (resp : MetadataResponse) : MetadataResponse :=
  { resp with TypeName := req.ProviderTypeName ++ "_service" }

/-- The values of the interface `resource.Resource` this provider implements. -/
inductive Resource where
  | service (r : mackerelServiceResource)
  deriving DecidableEq, Repr

/-- Dynamic dispatch of `Metadata` on a `resource.Resource`. -/
def Resource.Metadata : Resource → MetadataRequest → MetadataResponse → MetadataResponse
  | Resource.service r, req, resp => r.Metadata req resp

/-- The values of the interface `datasource.DataSource` this provider implements. -/
inductive DataSource where
  | service (d : mackerelServiceDataSource)
  deriving DecidableEq, Repr

/-- Dynamic dispatch of `Metadata` on a `datasource.DataSource`. -/
def DataSource.Metadata : DataSource → MetadataRequest → MetadataResponse → MetadataResponse
  | DataSource.service d, req, resp => d.Metadata req resp

/-- The factory `NewMackerelServiceResource`. -/
def NewMackerelServiceResource : Unit → Resource :=
  fun _ => Resource.service {}

/-- The factory `NewMackerelServiceDataSource`. -/
def NewMackerelServiceDataSource : Unit → DataSource :=
  fun _ => DataSource.service {}

/-- The type name a resource factory reports: `f().Metadata(ctx, req, &resp)` with
`req.ProviderTypeName = providerTypeName`, then `resp.TypeName`. -/
def resourceTypeName (f : Unit → Resource) : String :=
  ((f ()).Metadata { ProviderTypeName := providerTypeName } {}).TypeName

/-- The type name a data-source factory reports, as `resourceTypeName`. -/
def dataSourceTypeName (f : Unit → DataSource) : String :=
  ((f ()).Metadata { ProviderTypeName := providerTypeName } {}).TypeName

/-- The body of the `for _, f := range factories` loop shared by `Resources` and
`DataSources`: `enabled` starts true, is and-ed with membership in a non-nil inclusion
list and with absence from a non-nil exclusion list, and `f` is appended when it holds. -/
def filterStep {α : Type} (typeName : α → String) (enabledTypes disabledTypes : GoSlice)
    (filteredFactories : List α) (f : α) : List α :=
  let enabled := true
  let enabled :=
    if enabledTypes ≠ none then enabled && slicesContains enabledTypes (typeName f) else enabled
  let enabled :=
    if disabledTypes ≠ none then enabled && !slicesContains disabledTypes (typeName f)
    else enabled
  if enabled then filteredFactories ++ [f] else filteredFactories

/-- The filtering done by `Resources` and `DataSources` on their factory list: all of it
when both lists are nil, the loop otherwise. -/
def filterFactories {α : Type} (typeName : α → String) (enabledTypes disabledTypes : GoSlice)
    (factories : List α) : List α :=
  if enabledTypes = none ∧ disabledTypes = none then factories
  else factories.foldl (filterStep typeName enabledTypes disabledTypes) []

/-- The resource factories registered in `mackerelProvider.Resources`. -/
def resourceFactories : List (Unit → Resource) := [NewMackerelServiceResource]

/-- The data-source factories registered in `mackerelProvider.DataSources`. -/
def dataSourceFactories : List (Unit → DataSource) := [NewMackerelServiceDataSource]

/-- The method `mackerelProvider.Resources`. -/
def mackerelProvider.Resources (m : mackerelProvider) : List (Unit → Resource) :=
  filterFactories resourceTypeName m.config.enabledResourceTypes m.config.disabledResourceTypes
    resourceFactories

/-- The method `mackerelProvider.DataSources`. -/
def mackerelProvider.DataSources (m : mackerelProvider) : List (Unit → DataSource) :=
  filterFactories dataSourceTypeName m.config.enabledDataSourceTypes
    m.config.disabledDataSourceTypes dataSourceFactories

/-- The filter condition of §4.4: an unset list imposes no constraint, a set inclusion list
requires membership, a set exclusion list disqualifies its members. -/
def passesLists (enabledTypes disabledTypes : GoSlice) (name : String) : Prop :=
  (enabledTypes = none ∨ ∃ l, enabledTypes = some l ∧ name ∈ l) ∧
  (disabledTypes = none ∨ ∃ l, disabledTypes = some l ∧ name ∉ l)

/-- The value of `req.ProviderData` (a Go `any`): the nil interface, a `*mackerel.Client`
(itself possibly a nil pointer), or a value of another dynamic type, named as `%T` prints
it. -/
inductive ProviderData where
  | nil
  | client (c : Option Client)
  | other (goType : String)
  deriving DecidableEq, Repr

/-- The function `retrieveClient`: no client and no diagnostic for nil provider data (the
ConfigureProvider RPC is not called), the asserted client otherwise, an error diagnostic
when the type assertion fails. -/
def retrieveClient (providerData : ProviderData) : Option Client × Diagnostics :=
  match providerData with
  | ProviderData.nil => (none, [])
  | ProviderData.client c => (c, [])
  | ProviderData.other goType =>
      (none,
        Diagnostics.AddError [] "Unconfigured Mackerel Client"
          ("Expected configured Mackerel client, but got: " ++ goType ++
            ". Please report this issue."))

/-! ## The remote side -/

/-- A Go `error` coming back from the remote client: the text of `Error()`, and whether the
remote side answered not-found (§6: `error-or-NotFound`). -/
structure RemoteError where
  Error : String
  IsNotFound : Bool
  deriving DecidableEq, Repr

/-- A call that reached the remote client, with the client handle it was made on. -/
inductive RemoteCall where
  | create (client : Option Client) (payload : ServiceModel)
  | read (client : Option Client) (id : String)
  | delete (client : Option Client) (id : String)
  deriving DecidableEq, Repr

/-- Modelled from the spec: the package `internal/mackerel` (the remote resource mapper of
the service type and the client) is called by the controller but its source is not
available. Its functions are the fields of this structure, over a remote world `σ`:

* `Create` is `ServiceModel.Create(ctx, client)`: it maps the configuration to a create
  payload and invokes the remote create (§4.3 a, b), returning only an `error`;
* `ReadService` is `mackerel.ReadService(ctx, client, id)`, returning a possibly nil
  `*ServiceModel` and a possibly nil `error`;
* `DeleteService` is the remote delete by identity (§6), returning an `error`;
* `Set` is `ServiceModel.Set(newData)`, the overwrite of the model by a read-back entity. -/
structure ServiceBackend (σ : Type) where
  Create : Option Client → ServiceModel → σ → Option RemoteError × σ
  ReadService : Option Client → String → σ → (Option ServiceModel × Option RemoteError) × σ
  DeleteService : Option Client → String → σ → Option RemoteError × σ
  Set : ServiceModel → ServiceModel → ServiceModel

/-- Modelled from the spec: `ServiceModel.Delete(ctx, client)` is not available. It invokes
the remote delete by identity; a not-found answer of the remote side is treated as success,
every other failure is returned (§4.3 Delete). -/
def ServiceModel.Delete {σ : Type} (b : ServiceBackend σ) (m : ServiceModel)
    (client : Option Client) (w : σ) : Option RemoteError × σ :=
  match b.DeleteService client m.ID.ValueString w with
  | (some err, w1) => if err.IsNotFound then (none, w1) else (some err, w1)
  | (none, w1) => (none, w1)

/-! ## internal/provider/resource_mackerel_service.go -/

/-- What `Get(ctx, &data)` yields on the `tfsdk.Plan` or `tfsdk.State` of a request: the
decoded model and the diagnostics of the decoding. -/
structure Decoded where
  data : ServiceModel
  diags : Diagnostics := []
  deriving DecidableEq, Repr

/-- The method `Get` of `tfsdk.Plan` and `tfsdk.State`. -/
def Decoded.Get (d : Decoded) : ServiceModel × Diagnostics :=
  (d.data, d.diags)

/-- The `tfsdk.State` of a response; `Raw = none` is the null state of a removed resource. -/
structure State where
  Raw : Option ServiceModel
  deriving DecidableEq, Repr

/-- The framework method `State.Set(ctx, &data)` on a model of the schema. -/
def State.Set (_s : State) (data : ServiceModel) : State × Diagnostics :=
  ({ Raw := some data }, [])

/-- The framework method `State.RemoveResource`, the signal that the resource no longer
exists. -/
def State.RemoveResource (_s : State) : State :=
  { Raw := none }

/-- A `resource.ConfigureRequest`. -/
structure ConfigureRequest where
  ProviderData : ProviderData
  deriving DecidableEq, Repr

/-- A `resource.ConfigureResponse`. -/
structure ConfigureResponse where
  Diagnostics : Diagnostics := []
  deriving DecidableEq, Repr

/-- A `resource.CreateRequest`. -/
structure CreateRequest where
  Plan : Decoded
  deriving DecidableEq, Repr

/-- A `resource.CreateResponse`. -/
structure CreateResponse where
  State : State
  Diagnostics : Diagnostics := []
  deriving DecidableEq, Repr

/-- A `resource.ReadRequest`. -/
structure ReadRequest where
  State : Decoded
  deriving DecidableEq, Repr

/-- A `resource.ReadResponse`. -/
structure ReadResponse where
  State : State
  Diagnostics : Diagnostics := []
  deriving DecidableEq, Repr

/-- A `resource.UpdateRequest`. -/
structure UpdateRequest where
  Plan : Decoded
  State : Decoded
  deriving DecidableEq, Repr

/-- A `resource.UpdateResponse`. -/
structure UpdateResponse where
  State : State
  Diagnostics : Diagnostics := []
  deriving DecidableEq, Repr

/-- A `resource.DeleteRequest`. -/
structure DeleteRequest where
  State : Decoded
  deriving DecidableEq, Repr

/-- A `resource.DeleteResponse`. -/
structure DeleteResponse where
  State : State
  Diagnostics : Diagnostics := []
  deriving DecidableEq, Repr

/-- A finished run of a controller method: what it returned (or that it panicked), the
remote world afterwards, and the remote calls it made, in order. -/
structure Run (σ ρ : Type) where
  result : Outcome ρ
  world : σ
  calls : List RemoteCall

/-- The method `mackerelServiceResource.Configure`. -/
def mackerelServiceResource.Configure (r : mackerelServiceResource) (req : ConfigureRequest)
    (resp : ConfigureResponse) : mackerelServiceResource × ConfigureResponse :=
  let (client, diags) := retrieveClient req.ProviderData
  let resp := { resp with Diagnostics := resp.Diagnostics.Append diags }
  if resp.Diagnostics.HasError then (r, resp)
  else ({ r with Client := client }, resp)

/-- The method `mackerelServiceResource.read`: the remote read by `data.ID`, an error
diagnostic when it fails, and then, without a return in between, `data.Set(*newData)`,
which dereferences `newData` whatever `err` was. -/
def mackerelServiceResource.read {σ : Type} (b : ServiceBackend σ) (r : mackerelServiceResource)
    (data : ServiceModel) (w : σ) : Run σ (ServiceModel × Diagnostics) :=
  let id := data.ID.ValueString
  let call := RemoteCall.read r.Client id
  match b.ReadService r.Client id w with
  | ((newData, err), w1) =>
    let diags : Diagnostics :=
      match err with
      | some e => Diagnostics.AddError [] ("Unable to read Service: " ++ id) e.Error
      | none => []
    match newData with
    | none =>
        { result := Outcome.panic "invalid memory address or nil pointer dereference",
          world := w1, calls := [call] }
    | some nd => { result := Outcome.done (b.Set data nd, diags), world := w1, calls := [call] }

/-- The method `mackerelServiceResource.Create`. -/
def mackerelServiceResource.Create {σ : Type} (b : ServiceBackend σ)
    (r : mackerelServiceResource) (req : CreateRequest) (resp : CreateResponse) (w : σ) :
    Run σ CreateResponse :=
  let (data, getDiags) := req.Plan.Get
  let resp := { resp with Diagnostics := resp.Diagnostics.Append getDiags }
  if resp.Diagnostics.HasError then { result := Outcome.done resp, world := w, calls := [] }
  else
    let call := RemoteCall.create r.Client data
    match b.Create r.Client data w with
    | (some err, w1) =>
        { result := Outcome.done
            { resp with
              Diagnostics := resp.Diagnostics.AddError "Unable to create Service" err.Error },
          world := w1, calls := [call] }
    | (none, w1) =>
        let data := { data with ID := data.Name }
        let rd := r.read b data w1
        match rd.result with
        | Outcome.panic msg =>
            { result := Outcome.panic msg, world := rd.world, calls := call :: rd.calls }
        | Outcome.done (data, diags) =>
            let resp := { resp with Diagnostics := resp.Diagnostics.Append diags }
            if resp.Diagnostics.HasError then
              { result := Outcome.done resp, world := rd.world, calls := call :: rd.calls }
            else
              let (st, setDiags) := resp.State.Set data
              { result := Outcome.done
                  { State := st, Diagnostics := resp.Diagnostics.Append setDiags },
                world := rd.world, calls := call :: rd.calls }

/-- The method `mackerelServiceResource.Read`. -/
def mackerelServiceResource.Read {σ : Type} (b : ServiceBackend σ)
    (r : mackerelServiceResource) (req : ReadRequest) (resp : ReadResponse) (w : σ) :
    Run σ ReadResponse :=
  let (data, getDiags) := req.State.Get
  let resp := { resp with Diagnostics := resp.Diagnostics.Append getDiags }
  if resp.Diagnostics.HasError then { result := Outcome.done resp, world := w, calls := [] }
  else
    let rd := r.read b data w
    match rd.result with
    | Outcome.panic msg => { result := Outcome.panic msg, world := rd.world, calls := rd.calls }
    | Outcome.done (data, diags) =>
        let resp := { resp with Diagnostics := resp.Diagnostics.Append diags }
        if resp.Diagnostics.HasError then
          { result := Outcome.done resp, world := rd.world, calls := rd.calls }
        else
          let (st, setDiags) := resp.State.Set data
          { result := Outcome.done
              { State := st, Diagnostics := resp.Diagnostics.Append setDiags },
            world := rd.world, calls := rd.calls }

/-- The method `mackerelServiceResource.Update`: the request and the client are unused. -/
def mackerelServiceResource.Update {σ : Type} (_b : ServiceBackend σ)
    (_r : mackerelServiceResource) (_req : UpdateRequest) (resp : UpdateResponse) (w : σ) :
    Run σ UpdateResponse :=
  { result := Outcome.done
      { resp with
        Diagnostics := resp.Diagnostics.AddError "Unable to update Service"
          "Mackerel services cannot be updated in-place. Please report this issue." },
    world := w, calls := [] }

/-- The method `mackerelServiceResource.Delete`. -/
def mackerelServiceResource.Delete {σ : Type} (b : ServiceBackend σ)
    (r : mackerelServiceResource) (req : DeleteRequest) (resp : DeleteResponse) (w : σ) :
    Run σ DeleteResponse :=
  let (data, getDiags) := req.State.Get
  let resp := { resp with Diagnostics := resp.Diagnostics.Append getDiags }
  if resp.Diagnostics.HasError then { result := Outcome.done resp, world := w, calls := [] }
  else
    let call := RemoteCall.delete r.Client data.ID.ValueString
    match data.Delete b r.Client w with
    | (some err, w1) =>
        { result := Outcome.done
            { resp with
              Diagnostics := resp.Diagnostics.AddError
                ("Unable to delete Service: " ++ data.ID.ValueString) err.Error },
          world := w1, calls := [call] }
    | (none, w1) => { result := Outcome.done resp, world := w1, calls := [call] }

/-! ## mackerel/provider.go -/

/-- A legacy `*schema.Resource`, known by the function that built it. -/
structure SchemaResource where
  builtBy : String
  deriving DecidableEq, Repr

/-- The part of the legacy `schema.Provider` the multiplexer touches. -/
structure SchemaProvider where
  ResourcesMap : List (String × SchemaResource)
  DataSourcesMap : List (String × SchemaResource)
  deriving DecidableEq, Repr

/-- Go's builtin `delete(m, key)`. -/
def goDelete {V : Type} (m : List (String × V)) (key : String) : List (String × V) :=
  m.filter (fun kv => kv.1 != key)

/-- The keys of a Go map: the type names a legacy map exposes. -/
def goKeys {V : Type} (m : List (String × V)) : List String :=
  m.map Prod.fst

/-- Go's `os.Getenv`: the empty string for an unset variable. -/
def osGetenv (env : String → Option String) (key : String) : String :=
  (env key).getD ""

/-- A protocol-5 server handed to `tf5muxserver.NewMuxServer`. -/
inductive ProtoServer where
  | framework (p : mackerelProvider)
  | sdk (p : SchemaProvider)
  deriving DecidableEq, Repr

/-- The `tfprotov5.ProviderServer` that `protoV5ProviderServer` returns: the legacy gRPC
provider alone, or the server of a mux `μ`. -/
inductive ProviderServer (μ : Type) where
  | grpc (p : SchemaProvider)
  | mux (m : μ)
  deriving DecidableEq, Repr

/-- The end of the toggle branch of `protoV5ProviderServer`: `panic(err)` when
`NewMuxServer` returned an error, `mux.ProviderServer()` otherwise. -/
def muxProviderServer {μ : Type} (built : Except String μ) : Outcome (ProviderServer μ) :=
  match built with
  | Except.error err => Outcome.panic err
  | Except.ok mux => Outcome.done (ProviderServer.mux mux)

/-- The function `protoV5ProviderServer`. `env` is the process environment and
`NewMuxServer` the library constructor `tf5muxserver.NewMuxServer`, whose error makes the
function panic. The legacy provider is passed by pointer, so it is returned as well. -/
def protoV5ProviderServer {μ : Type} (env : String → Option String)
    (NewMuxServer : List ProtoServer → Except String μ) (provider : SchemaProvider) :
    SchemaProvider × Outcome (ProviderServer μ) :=
  let fwFlag := osGetenv env "MACKEREL_EXPERIMENTAL_TFFRAMEWORK"
  if fwFlag = "1" ∨ fwFlag = "true" then
    let provider :=
      { provider with ResourcesMap := goDelete provider.ResourcesMap "mackerel_service" }
    let provider :=
      { provider with DataSourcesMap := goDelete provider.DataSourcesMap "mackerel_service" }
    (provider,
      muxProviderServer
        (NewMuxServer [ProtoServer.framework (New []), ProtoServer.sdk provider]))
  else (provider, Outcome.done (ProviderServer.grpc provider))

/-- The type names the current-generation provider built by `New()` exposes: those of its
resource factories followed by those of its data-source factories. -/
def frameworkTypeNames : List String :=
  (New []).Resources.map resourceTypeName ++ (New []).DataSources.map dataSourceTypeName

/-! ## Sample remote sides -/

/-- An in-memory remote side: the world is the list of the services that exist. Create
refuses a name that is taken; read and delete answer not-found, with no entity, for a name
that does not exist; `Set` overwrites the model with the read-back entity. -/
def memoryBackend : ServiceBackend (List ServiceModel) where
  Create := fun _ m w =>
    if w.any (fun s => s.Name.ValueString == m.Name.ValueString) then
      (some { Error := "service already exists", IsNotFound := false }, w)
    else (none, w ++ [{ m with ID := m.Name }])
  ReadService := fun _ id w =>
    match w.find? (fun s => s.Name.ValueString == id) with
    | some s => ((some s, none), w)
    | none => ((none, some { Error := "service not found", IsNotFound := true }), w)
  DeleteService := fun _ id w =>
    if w.any (fun s => s.Name.ValueString == id) then
      (none, w.filter (fun s => s.Name.ValueString != id))
    else (some { Error := "service not found", IsNotFound := true }, w)
  Set := fun _ nd => nd

/-- A remote side on which nothing exists and whose read hands back an empty entity (a
non-nil pointer) together with its not-found error. -/
def emptyEntityBackend : ServiceBackend Unit where
  Create := fun _ _ w => (some { Error := "remote is read-only", IsNotFound := false }, w)
  ReadService := fun _ _ w =>
    ((some { ID := TFString.null, Name := TFString.null, Memo := TFString.null },
      some { Error := "service not found", IsNotFound := true }), w)
  DeleteService := fun _ _ w => (some { Error := "remote is read-only", IsNotFound := false }, w)
  Set := fun _ nd => nd

/-- A configured controller. -/
def sampleResource : mackerelServiceResource :=
  { Client := some { APIKey := "key", APIBase := "https://api.mackerelio.com" } }

/-- The service `web`, as planned: `id` unknown, `memo` null. -/
def webPlan : ServiceModel :=
  { ID := TFString.unknown, Name := TFString.value "web", Memo := TFString.null }

/-- The service `web`, as stored in state. -/
def webState : ServiceModel :=
  { ID := TFString.value "web", Name := TFString.value "web", Memo := TFString.null }

/-! ## Names accumulated by options -/

/-- The names an option adds to `enabledResourceTypes`. -/
def MackerelProviderOption.enabledResources : MackerelProviderOption → List String
  | WithResourceEnabled types => types
  | _ => []

/-- The names an option adds to `disabledResourceTypes`. -/
def MackerelProviderOption.disabledResources : MackerelProviderOption → List String
  | WithResourceDisabled types => types
  | _ => []

/-- The names an option adds to `enabledDataSourceTypes`. -/
def MackerelProviderOption.enabledDataSources : MackerelProviderOption → List String
  | WithDataSourceEnabled types => types
  | _ => []

/-- The names an option adds to `disabledDataSourceTypes`. -/
def MackerelProviderOption.disabledDataSources : MackerelProviderOption → List String
  | WithDataSourceDisabled types => types
  | _ => []

/-- The names a sequence of options accumulates, in order, under the selector `pick`. -/
def accumulate {ω : Type} (pick : ω → List String) : List ω → List String
  | [] => []
  | opt :: rest => pick opt ++ accumulate pick rest

/-! ## mackerel/provider.go: the legacy provider -/

/-- The struct `providerConfig` of the legacy provider. -/
structure providerConfig where
  disabledResourceTypes : GoSlice := none
  disabledDataSourceTypes : GoSlice := none
  deriving DecidableEq, Repr

/-- The two constructors of a legacy `ProviderOpt`. -/
inductive ProviderOpt where
  | WithResourceDisabled (types : List String)
  | WithDataSourceDisabled (types : List String)
  deriving DecidableEq, Repr

/-- Running a legacy option on the configuration (`opt(&config)`). -/
def ProviderOpt.run (opt : ProviderOpt) (pc : providerConfig) : providerConfig :=
  match opt with
  | WithResourceDisabled types =>
      { pc with disabledResourceTypes := goAppend pc.disabledResourceTypes types }
  | WithDataSourceDisabled types =>
      { pc with disabledDataSourceTypes := goAppend pc.disabledDataSourceTypes types }

/-- The names a legacy option adds to `disabledResourceTypes`. -/
def ProviderOpt.disabledResources : ProviderOpt → List String
  | WithResourceDisabled types => types
  | _ => []

/-- The names a legacy option adds to `disabledDataSourceTypes`. -/
def ProviderOpt.disabledDataSources : ProviderOpt → List String
  | WithDataSourceDisabled types => types
  | _ => []

/-- Go's `for ... range s` over a slice: no iteration for the nil slice. -/
def goRange (s : GoSlice) : List String :=
  s.getD []

/-- Go's `_, found := m[key]`. -/
def goFound {V : Type} (m : List (String × V)) (key : String) : Bool :=
  m.any (fun kv => kv.1 == key)

/-- The body of the two disabling loops of `Provider`: `delete(m, ty)` when `ty` is found. -/
def disableStep (m : List (String × SchemaResource)) (ty : String) :
    List (String × SchemaResource) :=
  if goFound m ty then goDelete m ty else m

/-- The literal `resourcesMap` of `Provider`. -/
def baseResourcesMap : List (String × SchemaResource) :=
  [("mackerel_alert_group_setting", { builtBy := "resourceMackerelAlertGroupSetting" }),
   ("mackerel_aws_integration", { builtBy := "resourceMackerelAWSIntegration" }),
   ("mackerel_channel", { builtBy := "resourceMackerelChannel" }),
   ("mackerel_downtime", { builtBy := "resourceMackerelDowntime" }),
   ("mackerel_dashboard", { builtBy := "resourceMackerelDashboard" }),
   ("mackerel_monitor", { builtBy := "resourceMackerelMonitor" }),
   ("mackerel_notification_group", { builtBy := "resourceMackerelNotificationGroup" }),
   ("mackerel_role", { builtBy := "resourceMackerelRole" }),
   ("mackerel_role_metadata", { builtBy := "resourceMackerelRoleMetadata" }),
   ("mackerel_service", { builtBy := "resourceMackerelService" }),
   ("mackerel_service_metadata", { builtBy := "resourceMackerelServiceMetadata" })]

/-- The literal `dataSourcesMap` of `Provider`. -/
def baseDataSourcesMap : List (String × SchemaResource) :=
  [("mackerel_alert_group_setting", { builtBy := "dataSourceMackerelAlertGroupSetting" }),
   ("mackerel_aws_integration", { builtBy := "dataSourceMackerelAWSIntegration" }),
   ("mackerel_channel", { builtBy := "dataSourceMackerelChannel" }),
   ("mackerel_dashboard", { builtBy := "dataSourceMackerelDashboard" }),
   ("mackerel_downtime", { builtBy := "dataSourceMackerelDowntime" }),
   ("mackerel_monitor", { builtBy := "dataSourceMackerelMonitor" }),
   ("mackerel_notification_group", { builtBy := "dataSourceMackerelNotificationGroup" }),
   ("mackerel_role", { builtBy := "dataSourceMackerelRole" }),
   ("mackerel_role_metadata", { builtBy := "dataSourceMackerelRoleMetadata" }),
   ("mackerel_service", { builtBy := "dataSourceMackerelService" }),
   ("mackerel_service_metadata", { builtBy := "dataSourceMackerelServiceMetadata" }),
   ("mackerel_service_metric_names", { builtBy := "dataSourceMackerelServiceMetricNames" })]

/-- The function `Provider`: the options are run on the zero configuration, then every
disabled type that is found is deleted from the map of its own kind. -/
def Provider (opts : List ProviderOpt) : SchemaProvider :=
  let config : providerConfig := opts.foldl (fun config opt => opt.run config) {}
  let resourcesMap := (goRange config.disabledResourceTypes).foldl disableStep baseResourcesMap
  let dataSourcesMap :=
    (goRange config.disabledDataSourceTypes).foldl disableStep baseDataSourcesMap
  { ResourcesMap := resourcesMap, DataSourcesMap := dataSourcesMap }

/-! ## The service resource schema -/

/-- The string plan modifiers the service schema uses. -/
inductive StringPlanModifier where
  | UseStateForUnknown
  | RequiresReplace
  deriving DecidableEq, Repr

/-- The string validators the service schema uses. -/
inductive StringValidator where
  | ServiceNameValidator
  deriving DecidableEq, Repr

/-- A `schema.StringAttribute`. -/
structure StringAttribute where
  Required : Bool := false
  Optional : Bool := false
  Computed : Bool := false
  Description : String := ""
  Validators : List StringValidator := []
  PlanModifiers : List StringPlanModifier := []
  deriving DecidableEq, Repr

/-- A resource `schema.Schema` whose attributes are all strings. -/
structure Schema where
  Description : String
  Attributes : List (String × StringAttribute)
  deriving DecidableEq, Repr

/-- The method `mackerelServiceResource.Schema` (the value it stores in `resp.Schema`). -/
def mackerelServiceResource.Schema : Schema :=
  { Description := "The \x60mackerel_service\x60 resource allows creating and management of Service.",
    Attributes :=
      [("id",
        { Computed := true,
          PlanModifiers := [StringPlanModifier.UseStateForUnknown] }),
       ("name",
        { Required := true,
          Description := "The name of service.",
          Validators := [StringValidator.ServiceNameValidator],
          PlanModifiers := [StringPlanModifier.RequiresReplace] }),
       ("memo",
        { Optional := true,
          Description := "Notes related to this service.",
          PlanModifiers := [StringPlanModifier.RequiresReplace] })] }

/-- The value of the attribute `name` of a model (the `tfsdk` tags `id`, `name`, `memo`);
null for a resource that is absent. -/
def attributeValue (raw : Option ServiceModel) (name : String) : TFString :=
  match raw with
  | none => TFString.null
  | some m =>
      if name = "id" then m.ID
      else if name = "name" then m.Name
      else if name = "memo" then m.Memo
      else TFString.null

/-- The `resp.RequiresReplace` a plan modifier of the framework computes.
`stringplanmodifier.RequiresReplace` does not replace on creation (null state) or on
destroy (null plan) or when the planned value equals the state value, and requires
replacement otherwise; `UseStateForUnknown` never requires it. -/
def StringPlanModifier.requiresReplace (m : StringPlanModifier)
    (state plan : Option ServiceModel) (stateValue planValue : TFString) : Bool :=
  match m with
  | StringPlanModifier.UseStateForUnknown => false
  | StringPlanModifier.RequiresReplace =>
      if state.isNone then false
      else if plan.isNone then false
      else if planValue = stateValue then false
      else true

/-- The attribute paths the framework reports as requiring replacement after running the
plan modifiers of every attribute of the schema. -/
def requiresReplacePaths (schema : Schema) (state plan : Option ServiceModel) : List String :=
  (schema.Attributes.filter fun attr =>
      attr.2.PlanModifiers.any fun m =>
        m.requiresReplace state plan (attributeValue state attr.1)
          (attributeValue plan attr.1)).map Prod.fst

/-- What Terraform does with a planned change of an existing resource. -/
inductive PlannedAction where
  | noop
  | update
  | replace
  deriving DecidableEq, Repr

/-- The action planned for a change from `state` to `plan`: a replacement (destroy and
create, no `Update` call) as soon as a path requires it, an in-place `Update` when the plan
differs from the state otherwise. -/
def plannedAction (schema : Schema) (state plan : ServiceModel) : PlannedAction :=
  if requiresReplacePaths schema (some state) (some plan) ≠ [] then PlannedAction.replace
  else if plan ≠ state then PlannedAction.update
  else PlannedAction.noop

/-! ## Association normalizer and the notification group -/

/-- Modelled from the spec: the Association Normalizer (§4.1) belongs to the
notification-group controller, of which only the acceptance tests are available. Two
elements are duplicates when their identity keys are equal; the first-seen element of each
key is kept, in order, and the later ones are discarded. -/
def normalize {α κ : Type} [DecidableEq κ] (key : α → κ) : List α → List α
  | [] => []
  | x :: rest => x :: (normalize key rest).filter (fun y => key y ≠ key x)

/-- A `monitor` block of a notification group; its identity key is `id`. -/
structure MonitorBlock where
  id : String
  skip_default : Bool
  deriving DecidableEq, Repr

/-- A `service` block of a notification group; its identity key is `name`. -/
structure ServiceBlock where
  name : String
  deriving DecidableEq, Repr

/-- A notification group: as configured (`id` not yet known), as stored by the remote side,
and as kept in state. -/
structure NotificationGroup where
  id : Option String
  name : String
  notification_level : String
  child_notification_group_ids : List String
  child_channel_ids : List String
  monitor : List MonitorBlock
  service : List ServiceBlock
  deriving DecidableEq, Repr

/-- Modelled from the spec: `toCreatePayload` of the notification-group mapper (§4.2), not
available in source; the association collections are rebuilt from the configuration as
their full normalized sets (§3). -/
def NotificationGroup.toCreatePayload (config : NotificationGroup) : NotificationGroup :=
  { config with
    monitor := normalize (fun m : MonitorBlock => m.id) config.monitor,
    service := normalize (fun sv : ServiceBlock => sv.name) config.service }

/-- Modelled from the spec: the remote create (§6), which stores the payload under the
identity the server assigns. -/
def NotificationGroup.remoteCreate (payload : NotificationGroup) (remoteID : String) :
    NotificationGroup :=
  { payload with id := some remoteID }

/-- Modelled from the spec: `fromRemoteEntity` (§4.2), the full overwrite of the state by
the remote entity. -/
def NotificationGroup.fromRemoteEntity (entity : NotificationGroup) : NotificationGroup :=
  entity

/-- Modelled from the spec: Create followed by its Read (§4.3) for a notification group,
giving the remote entity and the state after apply. -/
def NotificationGroup.apply (config : NotificationGroup) (remoteID : String) :
    NotificationGroup × NotificationGroup :=
  let entity := config.toCreatePayload.remoteCreate remoteID
  (entity, entity.fromRemoteEntity)

/-- Modelled from the spec: the read-only counterpart (data source) of the notification
group, which maps the remote entity to state. -/
def NotificationGroup.dataSourceRead (entity : NotificationGroup) : NotificationGroup :=
  entity.fromRemoteEntity

/-- The `mackerel_notification_group.foo` of `testAccMackerelNotificationGroupConfigUpdated`:
two identical `monitor` blocks, and three `service` blocks of which two share a name. -/
def configUpdated (name childID channelID monitorID fooService barService : String) :
    NotificationGroup :=
  { id := none,
    name := name,
    notification_level := "critical",
    child_notification_group_ids := [childID],
    child_channel_ids := [channelID],
    monitor :=
      [{ id := monitorID, skip_default := false }, { id := monitorID, skip_default := false }],
    service := [{ name := fooService }, { name := fooService }, { name := barService }] }

/-! ## Registry filtering -/

/-- The boolean the loop body computes for a factory of type name `name`. -/
def keepsName (enabledTypes disabledTypes : GoSlice) (name : String) : Bool :=
  (if enabledTypes ≠ none then slicesContains enabledTypes name else true) &&
  (if disabledTypes ≠ none then !slicesContains disabledTypes name else true)

theorem filterStep_eq {α : Type} (typeName : α → String) (e d : GoSlice) (acc : List α)
    (f : α) :
    filterStep typeName e d acc f = if keepsName e d (typeName f) then acc ++ [f] else acc := by
  unfold filterStep keepsName
  cases e <;> cases d <;> simp

theorem foldl_filterStep {α : Type} (typeName : α → String) (e d : GoSlice) (fs acc : List α) :
    fs.foldl (filterStep typeName e d) acc
      = acc ++ fs.filter (fun f => keepsName e d (typeName f)) := by
  induction fs generalizing acc with
  | nil => simp
  | cons f rest ih =>
    rw [List.foldl_cons, ih, filterStep_eq]
    by_cases h : keepsName e d (typeName f) = true
    · simp [h, List.filter_cons]
    · simp [h, List.filter_cons]

theorem keepsName_iff (e d : GoSlice) (name : String) :
    keepsName e d name = true ↔ passesLists e d name := by
  unfold keepsName passesLists slicesContains
  cases e <;> cases d <;> simp

theorem mem_filterFactories {α : Type} (typeName : α → String) (e d : GoSlice)
    (fs : List α) (f : α) :
    f ∈ filterFactories typeName e d fs ↔ f ∈ fs ∧ passesLists e d (typeName f) := by
  unfold filterFactories
  split
  · rename_i h
    obtain ⟨he, hd⟩ := h
    subst he; subst hd
    simp [passesLists]
  · rw [foldl_filterStep, List.nil_append, List.mem_filter, keepsName_iff]

/-- C1: for every configuration built by `New`, a registered resource factory is returned by
`Resources()` exactly when its type name passes the inclusion and the exclusion list (an
unset list imposes no constraint), nothing unregistered is returned, the same holds for
`DataSources()`, and on any registry an inclusion list {A, B} with exclusion list {B}
exposes exactly the factories named A. -/
theorem registry_filtering_exact (opts : List MackerelProviderOption) :
    (∀ f : Unit → Resource,
      f ∈ (New opts).Resources ↔
        f ∈ resourceFactories ∧
          passesLists (New opts).config.enabledResourceTypes
            (New opts).config.disabledResourceTypes (resourceTypeName f)) ∧
    (∀ f : Unit → DataSource,
      f ∈ (New opts).DataSources ↔
        f ∈ dataSourceFactories ∧
          passesLists (New opts).config.enabledDataSourceTypes
            (New opts).config.disabledDataSourceTypes (dataSourceTypeName f)) ∧
    (∀ (α : Type) (typeName : α → String) (registry : List α) (A B : String) (f : α),
      A ≠ B →
        (f ∈ filterFactories typeName (some [A, B]) (some [B]) registry ↔
          f ∈ registry ∧ typeName f = A)) := by
  refine ⟨fun f => ?_, fun f => ?_, ?_⟩
  · exact mem_filterFactories _ _ _ _ _
  · exact mem_filterFactories _ _ _ _ _
  · intro α typeName registry A B f hAB
    rw [mem_filterFactories]
    simp only [passesLists]
    constructor
    · rintro ⟨hf, hin, hout⟩
      refine ⟨hf, ?_⟩
      rcases hin with h | ⟨l, hl, hmem⟩
      · cases h
      · cases hl
        rcases hout with h | ⟨l2, hl2, hnot⟩
        · cases h
        · cases hl2
          simp at hmem hnot
          rcases hmem with h | h
          · exact h
          · exact absurd h hnot
    · rintro ⟨hf, hA⟩
      refine ⟨hf, Or.inr ⟨_, rfl, ?_⟩, Or.inr ⟨_, rfl, ?_⟩⟩
      · simp [hA]
      · simp [hA, hAB]

/-- Witness for `registry_filtering_exact`: the provider built with inclusion list
{mackerel_service, mackerel_role} and exclusion list {mackerel_role} returns the service
factory, and on a three-name registry the lists {A, B}, {B} expose exactly A. -/
theorem registry_filtering_exact_witness :
    NewMackerelServiceResource ∈
        (New [MackerelProviderOption.WithResourceEnabled ["mackerel_service", "mackerel_role"],
              MackerelProviderOption.WithResourceDisabled ["mackerel_role"]]).Resources ∧
    ("A" ∈ filterFactories id (some ["A", "B"]) (some ["B"]) ["A", "B", "C"] ↔
      "A" ∈ ["A", "B", "C"] ∧ id "A" = "A") := by
  refine ⟨?_, ?_⟩
  · refine ((registry_filtering_exact _).1 NewMackerelServiceResource).2 ⟨by simp [resourceFactories], ?_⟩
    refine ⟨Or.inr ⟨_, rfl, ?_⟩, Or.inr ⟨_, rfl, ?_⟩⟩
    · decide
    · decide
  · exact (registry_filtering_exact []).2.2 String id ["A", "B", "C"] "A" "B" "A" (by decide)

/-! ## Protocol multiplexer -/

theorem mem_goDelete {V : Type} (m : List (String × V)) (key : String) (kv : String × V) :
    kv ∈ goDelete m key ↔ kv ∈ m ∧ kv.1 ≠ key := by
  simp [goDelete]

theorem mem_goKeys_goDelete {V : Type} (m : List (String × V)) (key n : String) :
    n ∈ goKeys (goDelete m key) ↔ n ∈ goKeys m ∧ n ≠ key := by
  simp only [goKeys, List.mem_map, mem_goDelete]
  constructor
  · rintro ⟨kv, ⟨hkv, hne⟩, rfl⟩
    exact ⟨⟨kv, hkv, rfl⟩, hne⟩
  · rintro ⟨⟨kv, hkv, rfl⟩, hne⟩
    exact ⟨kv, ⟨hkv, hne⟩, rfl⟩

theorem frameworkTypeNames_eq : frameworkTypeNames = ["mackerel_service", "mackerel_service"] := by
  decide

theorem protoV5ProviderServer_on {μ : Type} (env : String → Option String)
    (NewMuxServer : List ProtoServer → Except String μ) (provider : SchemaProvider)
    (hOn : osGetenv env "MACKEREL_EXPERIMENTAL_TFFRAMEWORK" = "1" ∨
      osGetenv env "MACKEREL_EXPERIMENTAL_TFFRAMEWORK" = "true") :
    protoV5ProviderServer env NewMuxServer provider =
      ({ ResourcesMap := goDelete provider.ResourcesMap "mackerel_service",
         DataSourcesMap := goDelete provider.DataSourcesMap "mackerel_service" },
        muxProviderServer
          (NewMuxServer
            [ProtoServer.framework (New []),
             ProtoServer.sdk
               { ResourcesMap := goDelete provider.ResourcesMap "mackerel_service",
                 DataSourcesMap := goDelete provider.DataSourcesMap "mackerel_service" }])) := by
  unfold protoV5ProviderServer
  simp only [hOn, if_true]

theorem protoV5ProviderServer_off {μ : Type} (env : String → Option String)
    (NewMuxServer : List ProtoServer → Except String μ) (provider : SchemaProvider)
    (hOff : ¬ (osGetenv env "MACKEREL_EXPERIMENTAL_TFFRAMEWORK" = "1" ∨
      osGetenv env "MACKEREL_EXPERIMENTAL_TFFRAMEWORK" = "true")) :
    protoV5ProviderServer env NewMuxServer provider =
      (provider, Outcome.done (ProviderServer.grpc provider)) := by
  unfold protoV5ProviderServer
  simp only [hOff, if_false]

theorem muxProviderServer_ne_grpc {μ : Type} (built : Except String μ) (p : SchemaProvider) :
    muxProviderServer built ≠ Outcome.done (ProviderServer.grpc p) := by
  cases built <;> simp [muxProviderServer]

/-- C2: with the toggle on, for every legacy provider, the current-generation provider
`New()` exposes the single name `mackerel_service` (as resource and as data source), that
name is absent from the legacy `ResourcesMap` and `DataSourcesMap` that are handed to the
mux constructor, so the exposed name sets are disjoint, and every other legacy entry is
still in the legacy maps, to which nothing is added. -/
theorem multiplexer_override {μ : Type} (env : String → Option String)
    (NewMuxServer : List ProtoServer → Except String μ) (provider : SchemaProvider)
    (hOn : osGetenv env "MACKEREL_EXPERIMENTAL_TFFRAMEWORK" = "1" ∨
      osGetenv env "MACKEREL_EXPERIMENTAL_TFFRAMEWORK" = "true") :
    (New []).Resources.map resourceTypeName = ["mackerel_service"] ∧
    (New []).DataSources.map dataSourceTypeName = ["mackerel_service"] ∧
    resourceTypeName NewMackerelServiceResource = providerTypeName ++ "_service" ∧
    (∀ n ∈ frameworkTypeNames,
      n ∉ goKeys (protoV5ProviderServer env NewMuxServer provider).1.ResourcesMap ∧
      n ∉ goKeys (protoV5ProviderServer env NewMuxServer provider).1.DataSourcesMap) ∧
    (∀ kv : String × SchemaResource,
      kv ∈ (protoV5ProviderServer env NewMuxServer provider).1.ResourcesMap ↔
        kv ∈ provider.ResourcesMap ∧ kv.1 ∉ frameworkTypeNames) ∧
    (∀ kv : String × SchemaResource,
      kv ∈ (protoV5ProviderServer env NewMuxServer provider).1.DataSourcesMap ↔
        kv ∈ provider.DataSourcesMap ∧ kv.1 ∉ frameworkTypeNames) ∧
    (protoV5ProviderServer env NewMuxServer provider).2 =
      muxProviderServer
        (NewMuxServer
          [ProtoServer.framework (New []),
           ProtoServer.sdk (protoV5ProviderServer env NewMuxServer provider).1]) := by
  rw [protoV5ProviderServer_on env NewMuxServer provider hOn, frameworkTypeNames_eq]
  refine ⟨by decide, by decide, by decide, ?_, ?_, ?_, rfl⟩
  · intro n hn
    have hn : n = "mackerel_service" := by simpa using hn
    subst hn
    constructor <;> simp [mem_goKeys_goDelete]
  · intro kv
    simp [mem_goDelete]
  · intro kv
    simp [mem_goDelete]

/-- Witness for `multiplexer_override`: with the variable set to `1`, a legacy provider
with three resources and two data sources keeps all of them but `mackerel_service`. -/
theorem multiplexer_override_witness :
    (osGetenv (fun _ => some "1") "MACKEREL_EXPERIMENTAL_TFFRAMEWORK" = "1" ∨
      osGetenv (fun _ => some "1") "MACKEREL_EXPERIMENTAL_TFFRAMEWORK" = "true") ∧
    (("mackerel_role", { builtBy := "resourceMackerelRole" }) ∈
        (protoV5ProviderServer (fun _ => some "1")
          (fun servers : List ProtoServer => (Except.ok servers : Except String _))
          { ResourcesMap :=
              [("mackerel_monitor", { builtBy := "resourceMackerelMonitor" }),
               ("mackerel_service", { builtBy := "resourceMackerelService" }),
               ("mackerel_role", { builtBy := "resourceMackerelRole" })],
            DataSourcesMap :=
              [("mackerel_service", { builtBy := "dataSourceMackerelService" }),
               ("mackerel_role", { builtBy := "dataSourceMackerelRole" })] }).1.ResourcesMap ↔
      ("mackerel_role", { builtBy := "resourceMackerelRole" }) ∈
          [("mackerel_monitor", ({ builtBy := "resourceMackerelMonitor" } : SchemaResource)),
           ("mackerel_service", { builtBy := "resourceMackerelService" }),
           ("mackerel_role", { builtBy := "resourceMackerelRole" })] ∧
        "mackerel_role" ∉ frameworkTypeNames) :=
  ⟨by decide,
    (multiplexer_override (fun _ => some "1")
      (fun servers : List ProtoServer => (Except.ok servers : Except String _))
      { ResourcesMap :=
          [("mackerel_monitor", { builtBy := "resourceMackerelMonitor" }),
           ("mackerel_service", { builtBy := "resourceMackerelService" }),
           ("mackerel_role", { builtBy := "resourceMackerelRole" })],
        DataSourcesMap :=
          [("mackerel_service", { builtBy := "dataSourceMackerelService" }),
           ("mackerel_role", { builtBy := "dataSourceMackerelRole" })] }
      (by decide)).2.2.2.2.1 ("mackerel_role", { builtBy := "resourceMackerelRole" })⟩

/-- C10: the toggle is off by default and migrates one type. `protoV5ProviderServer`
builds the mux exactly when `MACKEREL_EXPERIMENTAL_TFFRAMEWORK` is `1` or `true`; for every
other value, also unset or empty, the legacy provider and its two maps are unchanged and
served alone; when it is on, each legacy map loses the name `mackerel_service` and no
other. -/
theorem generation_toggle {μ : Type} (env : String → Option String)
    (NewMuxServer : List ProtoServer → Except String μ) (provider : SchemaProvider) :
    ((∃ built : Except String μ,
        (protoV5ProviderServer env NewMuxServer provider).2 = muxProviderServer built) ↔
      (env "MACKEREL_EXPERIMENTAL_TFFRAMEWORK" = some "1" ∨
        env "MACKEREL_EXPERIMENTAL_TFFRAMEWORK" = some "true")) ∧
    (¬ (env "MACKEREL_EXPERIMENTAL_TFFRAMEWORK" = some "1" ∨
        env "MACKEREL_EXPERIMENTAL_TFFRAMEWORK" = some "true") →
      protoV5ProviderServer env NewMuxServer provider =
        (provider, Outcome.done (ProviderServer.grpc provider))) ∧
    ((env "MACKEREL_EXPERIMENTAL_TFFRAMEWORK" = none ∨
        env "MACKEREL_EXPERIMENTAL_TFFRAMEWORK" = some "") →
      protoV5ProviderServer env NewMuxServer provider =
        (provider, Outcome.done (ProviderServer.grpc provider))) ∧
    ((env "MACKEREL_EXPERIMENTAL_TFFRAMEWORK" = some "1" ∨
        env "MACKEREL_EXPERIMENTAL_TFFRAMEWORK" = some "true") →
      (protoV5ProviderServer env NewMuxServer provider).2 =
          muxProviderServer
            (NewMuxServer
              [ProtoServer.framework (New []),
               ProtoServer.sdk (protoV5ProviderServer env NewMuxServer provider).1]) ∧
        (∀ n : String,
          n ∈ goKeys (protoV5ProviderServer env NewMuxServer provider).1.ResourcesMap ↔
            n ∈ goKeys provider.ResourcesMap ∧ n ≠ "mackerel_service") ∧
        (∀ n : String,
          n ∈ goKeys (protoV5ProviderServer env NewMuxServer provider).1.DataSourcesMap ↔
            n ∈ goKeys provider.DataSourcesMap ∧ n ≠ "mackerel_service")) := by
  have hflag : (osGetenv env "MACKEREL_EXPERIMENTAL_TFFRAMEWORK" = "1" ∨
      osGetenv env "MACKEREL_EXPERIMENTAL_TFFRAMEWORK" = "true") ↔
      (env "MACKEREL_EXPERIMENTAL_TFFRAMEWORK" = some "1" ∨
        env "MACKEREL_EXPERIMENTAL_TFFRAMEWORK" = some "true") := by
    unfold osGetenv
    cases h : env "MACKEREL_EXPERIMENTAL_TFFRAMEWORK" with
    | none => simp
    | some v => simp
  have hoff : ¬ (env "MACKEREL_EXPERIMENTAL_TFFRAMEWORK" = some "1" ∨
        env "MACKEREL_EXPERIMENTAL_TFFRAMEWORK" = some "true") →
      protoV5ProviderServer env NewMuxServer provider =
        (provider, Outcome.done (ProviderServer.grpc provider)) := fun h =>
    protoV5ProviderServer_off env NewMuxServer provider (fun h2 => h (hflag.1 h2))
  refine ⟨⟨?_, ?_⟩, hoff, ?_, ?_⟩
  · rintro ⟨built, hb⟩
    by_contra hne
    rw [hoff hne] at hb
    exact muxProviderServer_ne_grpc built provider hb.symm
  · intro h
    rw [protoV5ProviderServer_on env NewMuxServer provider (hflag.2 h)]
    exact ⟨_, rfl⟩
  · intro h
    apply hoff
    rcases h with h | h <;> simp [h]
  · intro h
    rw [protoV5ProviderServer_on env NewMuxServer provider (hflag.2 h)]
    exact ⟨rfl, fun n => mem_goKeys_goDelete _ _ _, fun n => mem_goKeys_goDelete _ _ _⟩

/-- Witness for `generation_toggle`: with the variable unset the legacy provider is served
alone and unchanged. -/
theorem generation_toggle_witness :
    ((fun _ : String => (none : Option String)) "MACKEREL_EXPERIMENTAL_TFFRAMEWORK" = none ∨
      (fun _ : String => (none : Option String)) "MACKEREL_EXPERIMENTAL_TFFRAMEWORK" = some "") ∧
    protoV5ProviderServer (fun _ => none)
        (fun servers : List ProtoServer => (Except.ok servers : Except String _))
        { ResourcesMap := [("mackerel_service", { builtBy := "resourceMackerelService" })],
          DataSourcesMap := [("mackerel_service", { builtBy := "dataSourceMackerelService" })] }
      = ({ ResourcesMap := [("mackerel_service", { builtBy := "resourceMackerelService" })],
           DataSourcesMap :=
             [("mackerel_service", { builtBy := "dataSourceMackerelService" })] },
         Outcome.done
           (ProviderServer.grpc
             { ResourcesMap := [("mackerel_service", { builtBy := "resourceMackerelService" })],
               DataSourcesMap :=
                 [("mackerel_service", { builtBy := "dataSourceMackerelService" })] })) :=
  ⟨Or.inl rfl,
    (generation_toggle (fun _ => none)
      (fun servers : List ProtoServer => (Except.ok servers : Except String _))
      { ResourcesMap := [("mackerel_service", { builtBy := "resourceMackerelService" })],
        DataSourcesMap :=
          [("mackerel_service", { builtBy := "dataSourceMackerelService" })] }).2.2.1
      (Or.inl rfl)⟩

/-! ## Diagnostics -/

theorem Diagnostics.Append_nil (diags : Diagnostics) : Diagnostics.Append diags [] = diags := rfl

theorem Diagnostics.Append_cons (diags : Diagnostics) (d : Diagnostic) (more : Diagnostics) :
    Diagnostics.Append diags (d :: more)
      = Diagnostics.Append (if diags.contains d then diags else diags ++ [d]) more := rfl

theorem Diagnostics.mem_Append (diags more : Diagnostics) (x : Diagnostic) :
    x ∈ Diagnostics.Append diags more ↔ x ∈ diags ∨ x ∈ more := by
  induction more generalizing diags with
  | nil => simp [Diagnostics.Append_nil]
  | cons d rest ih =>
    rw [Diagnostics.Append_cons, ih]
    by_cases h : diags.contains d = true
    · have hd : d ∈ diags := by simpa using h
      simp only [h, if_true, List.mem_cons]
      constructor
      · rintro (h1 | h1)
        · exact Or.inl h1
        · exact Or.inr (Or.inr h1)
      · rintro (h1 | h1 | h1)
        · exact Or.inl h1
        · exact Or.inl (h1 ▸ hd)
        · exact Or.inr h1
    · simp only [h, Bool.false_eq_true, if_false, List.mem_append, List.mem_singleton,
        List.mem_cons]
      tauto

theorem Diagnostics.HasError_iff (diags : Diagnostics) :
    Diagnostics.HasError diags = true ↔ ∃ d ∈ diags, d.severity = Severity.error := by
  simp [Diagnostics.HasError]

theorem Diagnostics.HasError_Append (diags more : Diagnostics) :
    Diagnostics.HasError (Diagnostics.Append diags more)
      = (Diagnostics.HasError diags || Diagnostics.HasError more) := by
  rw [Bool.eq_iff_iff, Bool.or_eq_true, Diagnostics.HasError_iff, Diagnostics.HasError_iff,
    Diagnostics.HasError_iff]
  constructor
  · rintro ⟨d, hd, he⟩
    rcases (Diagnostics.mem_Append _ _ _).1 hd with h | h
    · exact Or.inl ⟨d, h, he⟩
    · exact Or.inr ⟨d, h, he⟩
  · rintro (⟨d, hd, he⟩ | ⟨d, hd, he⟩)
    · exact ⟨d, (Diagnostics.mem_Append _ _ _).2 (Or.inl hd), he⟩
    · exact ⟨d, (Diagnostics.mem_Append _ _ _).2 (Or.inr hd), he⟩

theorem Diagnostics.mem_AddError (diags : Diagnostics) (summary detail : String)
    (x : Diagnostic) :
    x ∈ Diagnostics.AddError diags summary detail
      ↔ x ∈ diags ∨ x = NewErrorDiagnostic summary detail := by
  simp [Diagnostics.AddError, Diagnostics.mem_Append]

theorem Diagnostics.HasError_AddError (diags : Diagnostics) (summary detail : String) :
    Diagnostics.HasError (Diagnostics.AddError diags summary detail) = true := by
  rw [Diagnostics.HasError_iff]
  exact ⟨NewErrorDiagnostic summary detail,
    (Diagnostics.mem_AddError _ _ _ _).2 (Or.inr rfl), rfl⟩

/-! ## Service lifecycle controller -/

/-- C3: the service type does not support update. For every request, response, client and
remote world, `Update` returns a response that carries the error diagnostic
`Unable to update Service` (services cannot be updated in-place, please report), keeps
every diagnostic it was given, leaves the state as it was, makes no remote call and leaves
the remote world untouched. -/
theorem update_unsupported {σ : Type} (b : ServiceBackend σ) (r : mackerelServiceResource)
    (req : UpdateRequest) (resp : UpdateResponse) (w : σ) :
    ∃ out : UpdateResponse,
      (r.Update b req resp w).result = Outcome.done out ∧
      NewErrorDiagnostic "Unable to update Service"
          "Mackerel services cannot be updated in-place. Please report this issue."
        ∈ out.Diagnostics ∧
      out.Diagnostics.HasError = true ∧
      (∀ d ∈ resp.Diagnostics, d ∈ out.Diagnostics) ∧
      out.State = resp.State ∧
      (r.Update b req resp w).calls = [] ∧
      (r.Update b req resp w).world = w := by
  refine ⟨_, rfl, ?_, ?_, ?_, rfl, rfl, rfl⟩
  · exact (Diagnostics.mem_AddError _ _ _ _).2 (Or.inr rfl)
  · exact Diagnostics.HasError_AddError _ _ _
  · intro d hd
    exact (Diagnostics.mem_AddError _ _ _ _).2 (Or.inl hd)

theorem read_calls {σ : Type} (b : ServiceBackend σ) (r : mackerelServiceResource)
    (data : ServiceModel) (w : σ) :
    (r.read b data w).calls = [RemoteCall.read r.Client data.ID.ValueString] := by
  simp only [mackerelServiceResource.read]
  split <;> rfl

theorem read_world {σ : Type} (b : ServiceBackend σ) (r : mackerelServiceResource)
    (data : ServiceModel) (w : σ) :
    (r.read b data w).world = (b.ReadService r.Client data.ID.ValueString w).2 := by
  simp only [mackerelServiceResource.read]
  split <;> rfl

theorem read_result_nil {σ : Type} (b : ServiceBackend σ) (r : mackerelServiceResource)
    (data : ServiceModel) (w w1 : σ) (err : Option RemoteError)
    (h : b.ReadService r.Client data.ID.ValueString w = ((none, err), w1)) :
    (r.read b data w).result
      = Outcome.panic "invalid memory address or nil pointer dereference" := by
  simp only [mackerelServiceResource.read, h]

theorem read_result_ok {σ : Type} (b : ServiceBackend σ) (r : mackerelServiceResource)
    (data nd : ServiceModel) (w w1 : σ)
    (h : b.ReadService r.Client data.ID.ValueString w = ((some nd, none), w1)) :
    (r.read b data w).result = Outcome.done (b.Set data nd, []) := by
  simp only [mackerelServiceResource.read, h]

theorem read_result_err {σ : Type} (b : ServiceBackend σ) (r : mackerelServiceResource)
    (data nd : ServiceModel) (w w1 : σ) (e : RemoteError)
    (h : b.ReadService r.Client data.ID.ValueString w = ((some nd, some e), w1)) :
    (r.read b data w).result
      = Outcome.done (b.Set data nd,
          Diagnostics.AddError [] ("Unable to read Service: " ++ data.ID.ValueString) e.Error) := by
  simp only [mackerelServiceResource.read, h]

theorem Create_calls_of_created {σ : Type} (b : ServiceBackend σ) (r : mackerelServiceResource)
    (req : CreateRequest) (resp : CreateResponse) (w w1 : σ)
    (hPlan : (resp.Diagnostics.Append req.Plan.diags).HasError = false)
    (hCreate : b.Create r.Client req.Plan.data w = (none, w1)) :
    (r.Create b req resp w).calls
      = [RemoteCall.create r.Client req.Plan.data,
         RemoteCall.read r.Client req.Plan.data.Name.ValueString] ∧
    (r.Create b req resp w).world
      = (b.ReadService r.Client req.Plan.data.Name.ValueString w1).2 := by
  have hc := read_calls b r { req.Plan.data with ID := req.Plan.data.Name } w1
  have hw := read_world b r { req.Plan.data with ID := req.Plan.data.Name } w1
  unfold mackerelServiceResource.Create
  simp only [Decoded.Get, hPlan, hCreate, Bool.false_eq_true, if_false]
  cases hr : (r.read b { req.Plan.data with ID := req.Plan.data.Name } w1).result with
  | panic msg => exact ⟨by simp [hc], by simp [hw]⟩
  | done pr =>
    obtain ⟨data, diags⟩ := pr
    simp only
    split <;> exact ⟨by simp [hc], by simp [hw]⟩

/-- C4: the identity of a service is client-derived. For every plan that decodes and whose
remote create succeeds, `Create` makes exactly two remote calls, the create with the plan
and then the read-back in the world the create left, and the id of that read is the
planned name; when the read-back succeeds with entity `nd`, the stored state is
`Set` of the plan carrying `ID = Name` and `nd`, not the bare plan, and no diagnostic is
added. -/
theorem create_identity_client_derived {σ : Type} (b : ServiceBackend σ)
    (r : mackerelServiceResource) (req : CreateRequest) (resp : CreateResponse) (w w1 : σ)
    (hPlan : (resp.Diagnostics.Append req.Plan.diags).HasError = false)
    (hCreate : b.Create r.Client req.Plan.data w = (none, w1)) :
    (r.Create b req resp w).calls
      = [RemoteCall.create r.Client req.Plan.data,
         RemoteCall.read r.Client req.Plan.data.Name.ValueString] ∧
    (r.Create b req resp w).world
      = (b.ReadService r.Client req.Plan.data.Name.ValueString w1).2 ∧
    (∀ (nd : ServiceModel) (w2 : σ),
      b.ReadService r.Client req.Plan.data.Name.ValueString w1 = ((some nd, none), w2) →
        (r.Create b req resp w).result
          = Outcome.done
              { State :=
                  { Raw := some (b.Set { req.Plan.data with ID := req.Plan.data.Name } nd) },
                Diagnostics := resp.Diagnostics.Append req.Plan.diags }) := by
  obtain ⟨hcalls, hworld⟩ := Create_calls_of_created b r req resp w w1 hPlan hCreate
  refine ⟨hcalls, hworld, ?_⟩
  intro nd w2 hRead
  have hr := read_result_ok b r { req.Plan.data with ID := req.Plan.data.Name } nd w1 w2 hRead
  unfold mackerelServiceResource.Create
  simp only [Decoded.Get, hPlan, hCreate, Bool.false_eq_true, if_false, hr,
    Diagnostics.Append_nil, State.Set]

/-- C5: `Create` is atomic on failure. For every plan that decodes and whose remote create
fails with `err`, `Create` returns the response it was given plus the error diagnostic
`Unable to create Service` with detail `err.Error()`, the response state is untouched, and
the create is the only remote call: no retry and no read-back. -/
theorem create_failure_atomic {σ : Type} (b : ServiceBackend σ) (r : mackerelServiceResource)
    (req : CreateRequest) (resp : CreateResponse) (w w1 : σ) (err : RemoteError)
    (hPlan : (resp.Diagnostics.Append req.Plan.diags).HasError = false)
    (hCreate : b.Create r.Client req.Plan.data w = (some err, w1)) :
    (r.Create b req resp w).result
      = Outcome.done
          { State := resp.State,
            Diagnostics :=
              (resp.Diagnostics.Append req.Plan.diags).AddError "Unable to create Service"
                err.Error } ∧
    NewErrorDiagnostic "Unable to create Service" err.Error
      ∈ (resp.Diagnostics.Append req.Plan.diags).AddError "Unable to create Service" err.Error ∧
    ((resp.Diagnostics.Append req.Plan.diags).AddError "Unable to create Service"
        err.Error).HasError = true ∧
    (r.Create b req resp w).calls = [RemoteCall.create r.Client req.Plan.data] ∧
    (r.Create b req resp w).world = w1 := by
  refine ⟨?_, (Diagnostics.mem_AddError _ _ _ _).2 (Or.inr rfl),
    Diagnostics.HasError_AddError _ _ _, ?_, ?_⟩ <;>
  · unfold mackerelServiceResource.Create
    simp only [Decoded.Get, hPlan, hCreate, Bool.false_eq_true, if_false]

/-- Witness for `create_identity_client_derived`: creating `web` on the empty in-memory
remote side. -/
theorem create_identity_client_derived_witness :
    (Diagnostics.Append ([] : Diagnostics) []).HasError = false ∧
    memoryBackend.Create sampleResource.Client webPlan [] = (none, [webState]) ∧
    (sampleResource.Create memoryBackend { Plan := { data := webPlan } }
        { State := { Raw := none } } []).calls
      = [RemoteCall.create sampleResource.Client webPlan,
         RemoteCall.read sampleResource.Client "web"] ∧
    (sampleResource.Create memoryBackend { Plan := { data := webPlan } }
        { State := { Raw := none } } []).result
      = Outcome.done { State := { Raw := some webState }, Diagnostics := [] } :=
  ⟨rfl, rfl,
    (create_identity_client_derived memoryBackend sampleResource { Plan := { data := webPlan } }
      { State := { Raw := none } } [] [webState] rfl rfl).1,
    (create_identity_client_derived memoryBackend sampleResource { Plan := { data := webPlan } }
      { State := { Raw := none } } [] [webState] rfl rfl).2.2 webState [webState] rfl⟩

/-- Witness for `create_failure_atomic`: creating `web` where it already exists. -/
theorem create_failure_atomic_witness :
    (Diagnostics.Append ([] : Diagnostics) []).HasError = false ∧
    memoryBackend.Create sampleResource.Client webPlan [webState]
      = (some { Error := "service already exists", IsNotFound := false }, [webState]) ∧
    (sampleResource.Create memoryBackend { Plan := { data := webPlan } }
        { State := { Raw := none } } [webState]).calls
      = [RemoteCall.create sampleResource.Client webPlan] :=
  ⟨rfl, rfl,
    (create_failure_atomic memoryBackend sampleResource { Plan := { data := webPlan } }
      { State := { Raw := none } } [webState] [webState]
      { Error := "service already exists", IsNotFound := false } rfl rfl).2.2.2.1⟩

theorem Read_of_decoded {σ : Type} (b : ServiceBackend σ) (r : mackerelServiceResource)
    (req : ReadRequest) (resp : ReadResponse) (w : σ)
    (hState : (resp.Diagnostics.Append req.State.diags).HasError = false) :
    (r.Read b req resp w).calls = [RemoteCall.read r.Client req.State.data.ID.ValueString] ∧
    (r.Read b req resp w).world
      = (b.ReadService r.Client req.State.data.ID.ValueString w).2 := by
  have hc := read_calls b r req.State.data w
  have hw := read_world b r req.State.data w
  unfold mackerelServiceResource.Read
  simp only [Decoded.Get, hState, Bool.false_eq_true, if_false]
  cases hr : (r.read b req.State.data w).result with
  | panic msg => exact ⟨by simp [hc], by simp [hw]⟩
  | done pr =>
    obtain ⟨data, diags⟩ := pr
    simp only
    split <;> exact ⟨by simp [hc], by simp [hw]⟩

theorem Read_result_err {σ : Type} (b : ServiceBackend σ) (r : mackerelServiceResource)
    (req : ReadRequest) (resp : ReadResponse) (w w1 : σ) (nd : ServiceModel)
    (err : RemoteError)
    (hState : (resp.Diagnostics.Append req.State.diags).HasError = false)
    (hRead : b.ReadService r.Client req.State.data.ID.ValueString w = ((some nd, some err), w1)) :
    (r.Read b req resp w).result
      = Outcome.done
          { State := resp.State,
            Diagnostics :=
              (resp.Diagnostics.Append req.State.diags).Append
                (Diagnostics.AddError []
                  ("Unable to read Service: " ++ req.State.data.ID.ValueString) err.Error) } := by
  have hr := read_result_err b r req.State.data nd w w1 err hRead
  have hE : ((resp.Diagnostics.Append req.State.diags).Append
      (Diagnostics.AddError [] ("Unable to read Service: " ++ req.State.data.ID.ValueString)
        err.Error)).HasError = true := by
    rw [Diagnostics.HasError_Append, Diagnostics.HasError_AddError, Bool.or_true]
  unfold mackerelServiceResource.Read
  simp only [Decoded.Get, hState, Bool.false_eq_true, if_false, hr, hE, if_true]

theorem Read_result_nil {σ : Type} (b : ServiceBackend σ) (r : mackerelServiceResource)
    (req : ReadRequest) (resp : ReadResponse) (w w1 : σ) (err : Option RemoteError)
    (hState : (resp.Diagnostics.Append req.State.diags).HasError = false)
    (hRead : b.ReadService r.Client req.State.data.ID.ValueString w = ((none, err), w1)) :
    (r.Read b req resp w).result
      = Outcome.panic "invalid memory address or nil pointer dereference" := by
  have hr := read_result_nil b r req.State.data w w1 err hRead
  unfold mackerelServiceResource.Read
  simp only [Decoded.Get, hState, Bool.false_eq_true, if_false, hr]

/-- C6, as amended: `Read` has no not-found case. For every prior state that decodes and
every failure `err` of the remote read, not-found included, whenever `Read` returns a
response it carries the error diagnostic `Unable to read Service: <id>` with detail
`err.Error()` and its state is the one it was given, so removal is not signalled; `Read`
does return when the failed read still hands back an entity; and the read is its only
remote call. -/
theorem read_not_found_is_error {σ : Type} (b : ServiceBackend σ) (r : mackerelServiceResource)
    (req : ReadRequest) (resp : ReadResponse) (w w1 : σ) (entity : Option ServiceModel)
    (err : RemoteError)
    (hState : (resp.Diagnostics.Append req.State.diags).HasError = false)
    (hRead : b.ReadService r.Client req.State.data.ID.ValueString w
      = ((entity, some err), w1)) :
    (∀ out : ReadResponse, (r.Read b req resp w).result = Outcome.done out →
      NewErrorDiagnostic ("Unable to read Service: " ++ req.State.data.ID.ValueString) err.Error
        ∈ out.Diagnostics ∧
      out.Diagnostics.HasError = true ∧
      out.State = resp.State) ∧
    (∀ nd : ServiceModel, entity = some nd →
      ∃ out : ReadResponse, (r.Read b req resp w).result = Outcome.done out) ∧
    (r.Read b req resp w).calls = [RemoteCall.read r.Client req.State.data.ID.ValueString] := by
  refine ⟨?_, ?_, (Read_of_decoded b r req resp w hState).1⟩
  · intro out hout
    cases entity with
    | none =>
      rw [Read_result_nil b r req resp w w1 (some err) hState hRead] at hout
      cases hout
    | some nd =>
      rw [Read_result_err b r req resp w w1 nd err hState hRead] at hout
      cases hout
      refine ⟨?_, ?_, rfl⟩
      · exact (Diagnostics.mem_Append _ _ _).2
          (Or.inr ((Diagnostics.mem_AddError _ _ _ _).2 (Or.inr rfl)))
      · rw [Diagnostics.HasError_Append, Diagnostics.HasError_AddError, Bool.or_true]
  · intro nd hnd
    subst hnd
    exact ⟨_, Read_result_err b r req resp w w1 nd err hState hRead⟩

/-- Witness for `read_not_found_is_error`: reading `web` on a remote side that answers
not-found together with an empty entity. -/
theorem read_not_found_is_error_witness :
    (Diagnostics.Append ([] : Diagnostics) []).HasError = false ∧
    emptyEntityBackend.ReadService sampleResource.Client "web" ()
      = ((some { ID := TFString.null, Name := TFString.null, Memo := TFString.null },
          some { Error := "service not found", IsNotFound := true }), ()) ∧
    (∃ out : ReadResponse,
      (sampleResource.Read emptyEntityBackend { State := { data := webState } }
        { State := { Raw := some webState } } ()).result = Outcome.done out) :=
  ⟨rfl, rfl,
    (read_not_found_is_error emptyEntityBackend sampleResource { State := { data := webState } }
      { State := { Raw := some webState } } () ()
      (some { ID := TFString.null, Name := TFString.null, Memo := TFString.null })
      { Error := "service not found", IsNotFound := true } rfl rfl).2.1 _ rfl⟩

/-- C6, counterexample: the service `web` is in state and the remote side reports it as
not found. On the in-memory remote side `Read` does not return at all, so it returns no
response that is free of errors and has the state removed; on the remote side that hands
back an empty entity with the not-found error, `Read` returns an error diagnostic and
keeps the prior state. -/
theorem read_not_found_counterexample :
    memoryBackend.ReadService sampleResource.Client "web" []
      = ((none, some { Error := "service not found", IsNotFound := true }), []) ∧
    (¬ ∃ out : ReadResponse,
      (sampleResource.Read memoryBackend { State := { data := webState } }
        { State := { Raw := some webState } } []).result = Outcome.done out ∧
      out.Diagnostics.HasError = false ∧
      out.State = State.RemoveResource { Raw := some webState }) ∧
    (sampleResource.Read emptyEntityBackend { State := { data := webState } }
        { State := { Raw := some webState } } ()).result
      = Outcome.done
          { State := { Raw := some webState },
            Diagnostics := [NewErrorDiagnostic "Unable to read Service: web" "service not found"] } := by
  refine ⟨rfl, ?_, rfl⟩
  rintro ⟨out, hout, -, -⟩
  have h : (sampleResource.Read memoryBackend { State := { data := webState } }
      { State := { Raw := some webState } } []).result
        = Outcome.panic "invalid memory address or nil pointer dereference" := rfl
  rw [h] at hout
  cases hout

theorem Delete_eval {σ : Type} (b : ServiceBackend σ) (r : mackerelServiceResource)
    (req : DeleteRequest) (resp : DeleteResponse) (w : σ)
    (hState : (resp.Diagnostics.Append req.State.diags).HasError = false) :
    r.Delete b req resp w =
      match req.State.data.Delete b r.Client w with
      | (some err, w1) =>
          { result := Outcome.done
              { State := resp.State,
                Diagnostics := (resp.Diagnostics.Append req.State.diags).AddError
                  ("Unable to delete Service: " ++ req.State.data.ID.ValueString) err.Error },
            world := w1, calls := [RemoteCall.delete r.Client req.State.data.ID.ValueString] }
      | (none, w1) =>
          { result := Outcome.done
              { State := resp.State, Diagnostics := resp.Diagnostics.Append req.State.diags },
            world := w1, calls := [RemoteCall.delete r.Client req.State.data.ID.ValueString] } := by
  unfold mackerelServiceResource.Delete
  simp only [Decoded.Get, hState, Bool.false_eq_true, if_false]

/-- C7: for every prior state that decodes, with identity `id`, `Delete` returns a
response, makes the one remote delete of `id`, and the response has an error diagnostic
exactly when the remote delete failed for a reason other than not-found: on success and on
not-found the diagnostics are the ones it was given, and on every other failure `err` the
diagnostic `Unable to delete Service: <id>` with detail `err.Error()` is added. -/
theorem delete_error_iff_other_failure {σ : Type} (b : ServiceBackend σ)
    (r : mackerelServiceResource) (req : DeleteRequest) (resp : DeleteResponse) (w : σ)
    (hState : (resp.Diagnostics.Append req.State.diags).HasError = false) :
    ∃ out : DeleteResponse,
      (r.Delete b req resp w).result = Outcome.done out ∧
      (r.Delete b req resp w).calls
        = [RemoteCall.delete r.Client req.State.data.ID.ValueString] ∧
      (r.Delete b req resp w).world
        = (b.DeleteService r.Client req.State.data.ID.ValueString w).2 ∧
      out.State = resp.State ∧
      (out.Diagnostics.HasError = true ↔
        ∃ err : RemoteError,
          (b.DeleteService r.Client req.State.data.ID.ValueString w).1 = some err ∧
          err.IsNotFound = false) ∧
      (∀ err : RemoteError,
        (b.DeleteService r.Client req.State.data.ID.ValueString w).1 = some err →
        err.IsNotFound = true →
          out.Diagnostics = resp.Diagnostics.Append req.State.diags) ∧
      (∀ err : RemoteError,
        (b.DeleteService r.Client req.State.data.ID.ValueString w).1 = some err →
        err.IsNotFound = false →
          out.Diagnostics
            = (resp.Diagnostics.Append req.State.diags).AddError
                ("Unable to delete Service: " ++ req.State.data.ID.ValueString) err.Error ∧
          NewErrorDiagnostic ("Unable to delete Service: " ++ req.State.data.ID.ValueString)
            err.Error ∈ out.Diagnostics) := by
  rw [Delete_eval b r req resp w hState]
  unfold ServiceModel.Delete
  rcases hd : b.DeleteService r.Client req.State.data.ID.ValueString w with ⟨_ | err, w1⟩
  · refine ⟨_, rfl, rfl, rfl, rfl, ?_, ?_, ?_⟩
    · simp [hState]
    · intro err h; cases h
    · intro err h; cases h
  · by_cases hnf : err.IsNotFound = true
    · dsimp only
      rw [if_pos hnf]
      refine ⟨_, rfl, rfl, rfl, rfl, ?_, ?_, ?_⟩
      · simp only [hState, Bool.false_eq_true, false_iff]
        rintro ⟨e, he, hne⟩
        cases he
        rw [hnf] at hne
        cases hne
      · intro e _ _; rfl
      · intro e he hne
        cases he
        rw [hnf] at hne
        cases hne
    · dsimp only
      rw [if_neg hnf]
      have hnf2 : err.IsNotFound = false := by simpa using hnf
      refine ⟨_, rfl, rfl, rfl, rfl, ?_, ?_, ?_⟩
      · simp only [Diagnostics.HasError_AddError, true_iff]
        exact ⟨err, rfl, hnf2⟩
      · intro e he hne
        cases he
        exact absurd hne hnf
      · intro e he _
        cases he
        exact ⟨rfl, (Diagnostics.mem_AddError _ _ _ _).2 (Or.inr rfl)⟩

/-- Witness for `delete_error_iff_other_failure`: deleting `web` where it does not exist
returns a response. -/
theorem delete_error_iff_other_failure_witness :
    (Diagnostics.Append ([] : Diagnostics) []).HasError = false ∧
    (memoryBackend.DeleteService sampleResource.Client "web" []).1
      = some { Error := "service not found", IsNotFound := true } ∧
    (∃ out : DeleteResponse,
      (sampleResource.Delete memoryBackend { State := { data := webState } }
        { State := { Raw := some webState } } []).result = Outcome.done out ∧
      out.Diagnostics = []) := by
  refine ⟨rfl, rfl, ?_⟩
  obtain ⟨out, hout, -, -, -, -, hnf, -⟩ :=
    delete_error_iff_other_failure memoryBackend sampleResource { State := { data := webState } }
      { State := { Raw := some webState } } [] rfl
  exact ⟨out, hout, hnf _ rfl rfl⟩

/-- C8, counterexample: `Configure` with nil provider data adds no diagnostic at all; it
returns with the client left nil. -/
theorem configure_nil_counterexample :
    mackerelServiceResource.Configure {} { ProviderData := ProviderData.nil } {}
      = ({ Client := none }, { Diagnostics := [] }) ∧
    (mackerelServiceResource.Configure {} { ProviderData := ProviderData.nil }
      {}).2.Diagnostics.HasError = false :=
  ⟨rfl, rfl⟩

/-- C8, as amended: on a response without errors, `Configure` adds no diagnostic and sets
the client to nil when provider data is nil (the provider is not configured yet), binds the
client with the diagnostics unchanged when a client handle of the expected type is
supplied, and fails with the error diagnostic `Unconfigured Mackerel Client`, leaving the
controller as it was, when provider data is a value of another type. -/
theorem configure_by_provider_data (r : mackerelServiceResource) (req : ConfigureRequest)
    (resp : ConfigureResponse) (hClean : resp.Diagnostics.HasError = false) :
    (req.ProviderData = ProviderData.nil →
      r.Configure req resp = ({ r with Client := none }, resp)) ∧
    (∀ c : Option Client, req.ProviderData = ProviderData.client c →
      r.Configure req resp = ({ r with Client := c }, resp)) ∧
    (∀ goType : String, req.ProviderData = ProviderData.other goType →
      r.Configure req resp
        = (r, { Diagnostics :=
                  resp.Diagnostics.Append
                    (Diagnostics.AddError [] "Unconfigured Mackerel Client"
                      ("Expected configured Mackerel client, but got: " ++ goType ++
                        ". Please report this issue.")) }) ∧
      (r.Configure req resp).2.Diagnostics.HasError = true ∧
      NewErrorDiagnostic "Unconfigured Mackerel Client"
          ("Expected configured Mackerel client, but got: " ++ goType ++
            ". Please report this issue.")
        ∈ (r.Configure req resp).2.Diagnostics) := by
  refine ⟨?_, ?_, ?_⟩
  · intro h
    unfold mackerelServiceResource.Configure
    simp only [h, retrieveClient, Diagnostics.Append_nil, hClean, Bool.false_eq_true, if_false]
  · intro c h
    unfold mackerelServiceResource.Configure
    simp only [h, retrieveClient, Diagnostics.Append_nil, hClean, Bool.false_eq_true, if_false]
  · intro goType h
    have hE : (resp.Diagnostics.Append
        (Diagnostics.AddError [] "Unconfigured Mackerel Client"
          ("Expected configured Mackerel client, but got: " ++ goType ++
            ". Please report this issue."))).HasError = true := by
      rw [Diagnostics.HasError_Append, Diagnostics.HasError_AddError, Bool.or_true]
    have hC : r.Configure req resp
        = (r, { Diagnostics :=
                  resp.Diagnostics.Append
                    (Diagnostics.AddError [] "Unconfigured Mackerel Client"
                      ("Expected configured Mackerel client, but got: " ++ goType ++
                        ". Please report this issue.")) }) := by
      unfold mackerelServiceResource.Configure
      simp only [h, retrieveClient, hE, if_true]
    rw [hC]
    refine ⟨rfl, hE, ?_⟩
    exact (Diagnostics.mem_Append _ _ _).2
      (Or.inr ((Diagnostics.mem_AddError _ _ _ _).2 (Or.inr rfl)))

/-- Witness for `configure_by_provider_data`: a fresh controller and a fresh response, with
a client handle as provider data. -/
theorem configure_by_provider_data_witness :
    Diagnostics.HasError ([] : Diagnostics) = false ∧
    mackerelServiceResource.Configure {}
        { ProviderData := ProviderData.client sampleResource.Client } {}
      = (sampleResource, { Diagnostics := [] }) :=
  ⟨rfl,
    (configure_by_provider_data {}
      { ProviderData := ProviderData.client sampleResource.Client } {} rfl).2.1
      sampleResource.Client rfl⟩

/-- C9, the failing run: `web` is in state and does not exist on the in-memory remote side,
whose read returns no entity and an error. The read helper makes the remote read and then
panics on the nil entity instead of returning its diagnostic, and so does `Read`. -/
theorem read_failure_nil_dereference :
    memoryBackend.ReadService sampleResource.Client "web" []
      = ((none, some { Error := "service not found", IsNotFound := true }), []) ∧
    (sampleResource.read memoryBackend webState []).result
      = Outcome.panic "invalid memory address or nil pointer dereference" ∧
    (sampleResource.read memoryBackend webState []).calls
      = [RemoteCall.read sampleResource.Client "web"] ∧
    (sampleResource.Read memoryBackend { State := { data := webState } }
        { State := { Raw := some webState } } []).result
      = Outcome.panic "invalid memory address or nil pointer dereference" :=
  ⟨rfl, rfl, rfl, rfl⟩

/-! ## Options and the lists they accumulate -/

theorem goAppend_nil (s : GoSlice) : goAppend s [] = s := by
  cases s with
  | none => rfl
  | some l => simp [goAppend]

theorem goAppend_append (s : GoSlice) (xs ys : List String) :
    goAppend (goAppend s xs) ys = goAppend s (xs ++ ys) := by
  cases s with
  | none =>
    cases xs with
    | nil => rfl
    | cons x rest => simp [goAppend]
  | some l => simp [goAppend]

theorem goAppend_none_eq_none (xs : List String) : goAppend none xs = none ↔ xs = [] := by
  cases xs <;> simp [goAppend]

theorem goRange_goAppend_none (xs : List String) : goRange (goAppend none xs) = xs := by
  cases xs <;> simp [goAppend, goRange]

theorem foldl_run_config (opts : List MackerelProviderOption) (c : MackerelProviderConfig) :
    opts.foldl (fun config opt => opt.run config) c =
      { enabledResourceTypes :=
          goAppend c.enabledResourceTypes
            (accumulate MackerelProviderOption.enabledResources opts),
        disabledResourceTypes :=
          goAppend c.disabledResourceTypes
            (accumulate MackerelProviderOption.disabledResources opts),
        enabledDataSourceTypes :=
          goAppend c.enabledDataSourceTypes
            (accumulate MackerelProviderOption.enabledDataSources opts),
        disabledDataSourceTypes :=
          goAppend c.disabledDataSourceTypes
            (accumulate MackerelProviderOption.disabledDataSources opts) } := by
  induction opts generalizing c with
  | nil => simp [accumulate, goAppend_nil]
  | cons opt rest ih =>
    rw [List.foldl_cons, ih]
    cases opt <;>
      simp [MackerelProviderOption.run, accumulate, goAppend_append,
        MackerelProviderOption.enabledResources, MackerelProviderOption.disabledResources,
        MackerelProviderOption.enabledDataSources, MackerelProviderOption.disabledDataSources]

theorem New_config (opts : List MackerelProviderOption) :
    (New opts).config =
      { enabledResourceTypes :=
          goAppend none (accumulate MackerelProviderOption.enabledResources opts),
        disabledResourceTypes :=
          goAppend none (accumulate MackerelProviderOption.disabledResources opts),
        enabledDataSourceTypes :=
          goAppend none (accumulate MackerelProviderOption.enabledDataSources opts),
        disabledDataSourceTypes :=
          goAppend none (accumulate MackerelProviderOption.disabledDataSources opts) } := by
  unfold New
  rw [foldl_run_config]

/-- C11: an empty list imposes no constraint, like an unset one. For every sequence of
options passed to `New`, each list of the configuration is nil exactly when the options
accumulated no name for it, so when no resource name was accumulated for inclusion or
exclusion `Resources()` is the full list of registered factories, and likewise
`DataSources()` for the data-source options. -/
theorem empty_lists_no_constraint (opts : List MackerelProviderOption) :
    ((New opts).config.enabledResourceTypes = none ↔
      accumulate MackerelProviderOption.enabledResources opts = []) ∧
    ((New opts).config.disabledResourceTypes = none ↔
      accumulate MackerelProviderOption.disabledResources opts = []) ∧
    ((New opts).config.enabledDataSourceTypes = none ↔
      accumulate MackerelProviderOption.enabledDataSources opts = []) ∧
    ((New opts).config.disabledDataSourceTypes = none ↔
      accumulate MackerelProviderOption.disabledDataSources opts = []) ∧
    (accumulate MackerelProviderOption.enabledResources opts = [] →
      accumulate MackerelProviderOption.disabledResources opts = [] →
        (New opts).Resources = resourceFactories) ∧
    (accumulate MackerelProviderOption.enabledDataSources opts = [] →
      accumulate MackerelProviderOption.disabledDataSources opts = [] →
        (New opts).DataSources = dataSourceFactories) := by
  refine ⟨?_, ?_, ?_, ?_, ?_, ?_⟩
  · rw [New_config]; exact goAppend_none_eq_none _
  · rw [New_config]; exact goAppend_none_eq_none _
  · rw [New_config]; exact goAppend_none_eq_none _
  · rw [New_config]; exact goAppend_none_eq_none _
  · intro he hd
    unfold mackerelProvider.Resources filterFactories
    rw [New_config, he, hd]
    simp [goAppend]
  · intro he hd
    unfold mackerelProvider.DataSources filterFactories
    rw [New_config, he, hd]
    simp [goAppend]

/-- Witness for `empty_lists_no_constraint`: both resource options called with zero names,
next to a data-source option that does name a type. -/
theorem empty_lists_no_constraint_witness :
    accumulate MackerelProviderOption.enabledResources
        [MackerelProviderOption.WithResourceEnabled [],
         MackerelProviderOption.WithDataSourceDisabled ["mackerel_service"],
         MackerelProviderOption.WithResourceDisabled []] = [] ∧
    accumulate MackerelProviderOption.disabledResources
        [MackerelProviderOption.WithResourceEnabled [],
         MackerelProviderOption.WithDataSourceDisabled ["mackerel_service"],
         MackerelProviderOption.WithResourceDisabled []] = [] ∧
    (New [MackerelProviderOption.WithResourceEnabled [],
          MackerelProviderOption.WithDataSourceDisabled ["mackerel_service"],
          MackerelProviderOption.WithResourceDisabled []]).Resources = resourceFactories :=
  ⟨rfl, rfl,
    (empty_lists_no_constraint
      [MackerelProviderOption.WithResourceEnabled [],
       MackerelProviderOption.WithDataSourceDisabled ["mackerel_service"],
       MackerelProviderOption.WithResourceDisabled []]).2.2.2.2.1 rfl rfl⟩

/-! ## The legacy provider -/

theorem mem_disableStep (m : List (String × SchemaResource)) (ty : String)
    (kv : String × SchemaResource) :
    kv ∈ disableStep m ty ↔ kv ∈ m ∧ kv.1 ≠ ty := by
  unfold disableStep
  by_cases h : goFound m ty = true
  · rw [if_pos h, mem_goDelete]
  · rw [if_neg h]
    constructor
    · intro hkv
      refine ⟨hkv, fun heq => h ?_⟩
      simp only [goFound, List.any_eq_true, beq_iff_eq]
      exact ⟨kv, hkv, heq⟩
    · exact fun hkv => hkv.1

theorem mem_foldl_disableStep (l : List String) (m : List (String × SchemaResource))
    (kv : String × SchemaResource) :
    kv ∈ l.foldl disableStep m ↔ kv ∈ m ∧ kv.1 ∉ l := by
  induction l generalizing m with
  | nil => simp
  | cons ty rest ih =>
    rw [List.foldl_cons, ih, mem_disableStep]
    simp only [List.mem_cons, not_or]
    tauto

theorem foldl_run_providerConfig (opts : List ProviderOpt) (c : providerConfig) :
    opts.foldl (fun config opt => opt.run config) c =
      { disabledResourceTypes :=
          goAppend c.disabledResourceTypes (accumulate ProviderOpt.disabledResources opts),
        disabledDataSourceTypes :=
          goAppend c.disabledDataSourceTypes
            (accumulate ProviderOpt.disabledDataSources opts) } := by
  induction opts generalizing c with
  | nil => simp [accumulate, goAppend_nil]
  | cons opt rest ih =>
    rw [List.foldl_cons, ih]
    cases opt <;>
      simp [ProviderOpt.run, accumulate, goAppend_append, ProviderOpt.disabledResources,
        ProviderOpt.disabledDataSources]

theorem Provider_eq (opts : List ProviderOpt) :
    Provider opts =
      { ResourcesMap :=
          (accumulate ProviderOpt.disabledResources opts).foldl disableStep baseResourcesMap,
        DataSourcesMap :=
          (accumulate ProviderOpt.disabledDataSources opts).foldl disableStep
            baseDataSourcesMap } := by
  unfold Provider
  simp only [foldl_run_providerConfig, goRange_goAppend_none]

/-- C14: for every list of options, the legacy `Provider` exposes exactly its 11 base
resource entries whose name was not accumulated by `WithResourceDisabled` and exactly its 12
base data-source entries whose name was not accumulated by `WithDataSourceDisabled`. Each
map depends only on the names disabled for its own kind, names outside the base set change
nothing, and the names of all options of a kind are accumulated. -/
theorem legacy_provider_exposes (opts : List ProviderOpt) :
    goKeys baseResourcesMap =
      ["mackerel_alert_group_setting", "mackerel_aws_integration", "mackerel_channel",
       "mackerel_downtime", "mackerel_dashboard", "mackerel_monitor",
       "mackerel_notification_group", "mackerel_role", "mackerel_role_metadata",
       "mackerel_service", "mackerel_service_metadata"] ∧
    (goKeys baseResourcesMap).length = 11 ∧
    goKeys baseDataSourcesMap =
      ["mackerel_alert_group_setting", "mackerel_aws_integration", "mackerel_channel",
       "mackerel_dashboard", "mackerel_downtime", "mackerel_monitor",
       "mackerel_notification_group", "mackerel_role", "mackerel_role_metadata",
       "mackerel_service", "mackerel_service_metadata", "mackerel_service_metric_names"] ∧
    (goKeys baseDataSourcesMap).length = 12 ∧
    (∀ kv : String × SchemaResource,
      kv ∈ (Provider opts).ResourcesMap ↔
        kv ∈ baseResourcesMap ∧ kv.1 ∉ accumulate ProviderOpt.disabledResources opts) ∧
    (∀ kv : String × SchemaResource,
      kv ∈ (Provider opts).DataSourcesMap ↔
        kv ∈ baseDataSourcesMap ∧ kv.1 ∉ accumulate ProviderOpt.disabledDataSources opts) ∧
    (∀ n : String,
      n ∈ goKeys (Provider opts).ResourcesMap ↔
        n ∈ goKeys baseResourcesMap ∧ n ∉ accumulate ProviderOpt.disabledResources opts) ∧
    (∀ n : String,
      n ∈ goKeys (Provider opts).DataSourcesMap ↔
        n ∈ goKeys baseDataSourcesMap ∧
          n ∉ accumulate ProviderOpt.disabledDataSources opts) := by
  have hR : ∀ kv : String × SchemaResource,
      kv ∈ (Provider opts).ResourcesMap ↔
        kv ∈ baseResourcesMap ∧ kv.1 ∉ accumulate ProviderOpt.disabledResources opts := by
    intro kv
    rw [Provider_eq]
    exact mem_foldl_disableStep _ _ _
  have hD : ∀ kv : String × SchemaResource,
      kv ∈ (Provider opts).DataSourcesMap ↔
        kv ∈ baseDataSourcesMap ∧ kv.1 ∉ accumulate ProviderOpt.disabledDataSources opts := by
    intro kv
    rw [Provider_eq]
    exact mem_foldl_disableStep _ _ _
  refine ⟨by decide, by decide, by decide, by decide, hR, hD, ?_, ?_⟩
  · intro n
    simp only [goKeys, List.mem_map]
    constructor
    · rintro ⟨kv, hkv, rfl⟩
      exact ⟨⟨kv, ((hR kv).1 hkv).1, rfl⟩, ((hR kv).1 hkv).2⟩
    · rintro ⟨⟨kv, hkv, rfl⟩, hn⟩
      exact ⟨kv, (hR kv).2 ⟨hkv, hn⟩, rfl⟩
  · intro n
    simp only [goKeys, List.mem_map]
    constructor
    · rintro ⟨kv, hkv, rfl⟩
      exact ⟨⟨kv, ((hD kv).1 hkv).1, rfl⟩, ((hD kv).1 hkv).2⟩
    · rintro ⟨⟨kv, hkv, rfl⟩, hn⟩
      exact ⟨kv, (hD kv).2 ⟨hkv, hn⟩, rfl⟩

/-! ## Immutable fields of the service -/

/-- C12: the name of a service is immutable. The service schema declares `name`, and
likewise `memo`, with the plan modifier requires-replace (and `id` without it); so for every
prior state and plan whose names differ the path `name` requires replacement and the
planned action is a replacement, not an `Update`, the only such path being `name` when
nothing else differs; and no `Update` call ever succeeds. -/
theorem service_name_requires_replace (state plan : ServiceModel)
    (hName : plan.Name ≠ state.Name) :
    (mackerelServiceResource.Schema.Attributes.lookup "name").map (fun a => a.PlanModifiers)
      = some [StringPlanModifier.RequiresReplace] ∧
    (mackerelServiceResource.Schema.Attributes.lookup "memo").map (fun a => a.PlanModifiers)
      = some [StringPlanModifier.RequiresReplace] ∧
    (mackerelServiceResource.Schema.Attributes.lookup "id").map (fun a => a.PlanModifiers)
      = some [StringPlanModifier.UseStateForUnknown] ∧
    "name" ∈ requiresReplacePaths mackerelServiceResource.Schema (some state) (some plan) ∧
    plannedAction mackerelServiceResource.Schema state plan = PlannedAction.replace ∧
    (plan.ID = state.ID → plan.Memo = state.Memo →
      requiresReplacePaths mackerelServiceResource.Schema (some state) (some plan)
        = ["name"]) ∧
    (∀ (σ : Type) (b : ServiceBackend σ) (r : mackerelServiceResource) (req : UpdateRequest)
        (resp : UpdateResponse) (w : σ),
      ∃ out : UpdateResponse,
        (r.Update b req resp w).result = Outcome.done out ∧
        out.Diagnostics.HasError = true) := by
  have hmem : "name" ∈
      requiresReplacePaths mackerelServiceResource.Schema (some state) (some plan) := by
    simp [requiresReplacePaths, mackerelServiceResource.Schema, attributeValue,
      StringPlanModifier.requiresReplace, List.filter_cons, hName]
  refine ⟨by decide, by decide, by decide, hmem, ?_, ?_, ?_⟩
  · unfold plannedAction
    rw [if_pos]
    intro hnil
    rw [hnil] at hmem
    cases hmem
  · intro hID hMemo
    simp [requiresReplacePaths, mackerelServiceResource.Schema, attributeValue,
      StringPlanModifier.requiresReplace, List.filter_cons, hName, hID, hMemo]
  · intro σ b r req resp w
    exact ⟨_, rfl, Diagnostics.HasError_AddError _ _ _⟩

/-- Witness for `service_name_requires_replace`: renaming the service `web` to `api`. -/
theorem service_name_requires_replace_witness :
    ({ webState with Name := TFString.value "api" } : ServiceModel).Name ≠ webState.Name ∧
    plannedAction mackerelServiceResource.Schema webState
        { webState with Name := TFString.value "api" } = PlannedAction.replace :=
  ⟨by decide,
    (service_name_requires_replace webState { webState with Name := TFString.value "api" }
      (by decide)).2.2.2.2.1⟩

/-! ## Duplicate association blocks -/

theorem mem_of_mem_normalize {α κ : Type} [DecidableEq κ] (key : α → κ) (xs : List α)
    (y : α) (h : y ∈ normalize key xs) : y ∈ xs := by
  induction xs with
  | nil => simp [normalize] at h
  | cons x rest ih =>
    simp only [normalize, List.mem_cons, List.mem_filter] at h
    rcases h with h | ⟨h, -⟩
    · exact h ▸ List.mem_cons_self _ _
    · exact List.mem_cons_of_mem _ (ih h)

theorem mem_keys_normalize {α κ : Type} [DecidableEq κ] (key : α → κ) (xs : List α) (k : κ) :
    k ∈ (normalize key xs).map key ↔ k ∈ xs.map key := by
  constructor
  · intro h
    obtain ⟨y, hy, rfl⟩ := List.mem_map.1 h
    exact List.mem_map.2 ⟨y, mem_of_mem_normalize key xs y hy, rfl⟩
  · induction xs with
    | nil => intro h; simp at h
    | cons x rest ih =>
      intro h
      by_cases hk : k = key x
      · subst hk
        simp [normalize]
      · have hrest : k ∈ rest.map key := by
          rcases List.mem_map.1 h with ⟨y, hy, rfl⟩
          rcases List.mem_cons.1 hy with hy | hy
          · exact absurd (hy ▸ rfl) hk
          · exact List.mem_map.2 ⟨y, hy, rfl⟩
        obtain ⟨y, hy, rfl⟩ := List.mem_map.1 (ih hrest)
        refine List.mem_map.2 ⟨y, ?_, rfl⟩
        simp only [normalize, List.mem_cons, List.mem_filter]
        exact Or.inr ⟨hy, by simpa using hk⟩

theorem nodup_keys_normalize {α κ : Type} [DecidableEq κ] (key : α → κ) (xs : List α) :
    ((normalize key xs).map key).Nodup := by
  induction xs with
  | nil => simp [normalize]
  | cons x rest ih =>
    simp only [normalize, List.map_cons, List.nodup_cons]
    constructor
    · intro h
      obtain ⟨y, hy, hkey⟩ := List.mem_map.1 h
      have := (List.mem_filter.1 hy).2
      simp [hkey] at this
    · exact ih.sublist ((List.filter_sublist _).map key)

theorem count_key_normalize {α κ : Type} [DecidableEq κ] (key : α → κ) (xs : List α) (x : α)
    (hx : x ∈ xs) : ((normalize key xs).map key).count (key x) = 1 :=
  List.count_eq_one_of_mem (nodup_keys_normalize key xs)
    ((mem_keys_normalize key xs (key x)).2 (List.mem_map.2 ⟨x, hx, rfl⟩))

/-- C13: duplicate association blocks collapse. For every notification-group
configuration, the monitor set and the service set of the state after apply hold exactly
one element for the `id` of every configured monitor block and for the `name` of every
configured service block, and nothing that was not configured; the data source reads the
same two sets back from the remote entity; and the configuration of the acceptance test,
with two identical monitor blocks and service blocks named foo, foo, bar, gives a monitor
set of size 1 and a service set of size 2. -/
theorem duplicate_blocks_collapse (config : NotificationGroup) (remoteID : String) :
    (∀ m ∈ config.monitor,
      (((config.apply remoteID).2.monitor.map fun x : MonitorBlock => x.id).count m.id) = 1) ∧
    (∀ sv ∈ config.service,
      (((config.apply remoteID).2.service.map fun x : ServiceBlock => x.name).count sv.name)
        = 1) ∧
    (∀ m ∈ (config.apply remoteID).2.monitor, m ∈ config.monitor) ∧
    (∀ sv ∈ (config.apply remoteID).2.service, sv ∈ config.service) ∧
    (NotificationGroup.dataSourceRead (config.apply remoteID).1).monitor
      = (config.apply remoteID).2.monitor ∧
    (NotificationGroup.dataSourceRead (config.apply remoteID).1).service
      = (config.apply remoteID).2.service ∧
    (∀ name childID channelID monitorID fooService barService : String,
      fooService ≠ barService →
        ((configUpdated name childID channelID monitorID fooService barService).apply
            remoteID).2.monitor = [{ id := monitorID, skip_default := false }] ∧
        ((configUpdated name childID channelID monitorID fooService barService).apply
            remoteID).2.monitor.length = 1 ∧
        ((configUpdated name childID channelID monitorID fooService barService).apply
            remoteID).2.service = [{ name := fooService }, { name := barService }] ∧
        ((configUpdated name childID channelID monitorID fooService barService).apply
            remoteID).2.service.length = 2) := by
  refine ⟨?_, ?_, ?_, ?_, rfl, rfl, ?_⟩
  · intro m hm
    exact count_key_normalize (fun x : MonitorBlock => x.id) config.monitor m hm
  · intro sv hsv
    exact count_key_normalize (fun x : ServiceBlock => x.name) config.service sv hsv
  · intro m hm
    exact mem_of_mem_normalize _ _ m hm
  · intro sv hsv
    exact mem_of_mem_normalize _ _ sv hsv
  · intro name childID channelID monitorID fooService barService hne
    have hne2 : barService ≠ fooService := fun h => hne h.symm
    simp [NotificationGroup.apply, NotificationGroup.toCreatePayload,
      NotificationGroup.remoteCreate, NotificationGroup.fromRemoteEntity, configUpdated,
      normalize, List.filter_cons, hne2]

/-- Witness for `duplicate_blocks_collapse`: the acceptance-test configuration with the
services `tf-service-abcde` and `tf-service-abcde-bar`. -/
theorem duplicate_blocks_collapse_witness :
    ("tf-service-abcde" : String) ≠ "tf-service-abcde-bar" ∧
    ((configUpdated "tf-notification-group abcde updated" "child" "channel" "monitor"
        "tf-service-abcde" "tf-service-abcde-bar").apply "group").2.service.length = 2 :=
  ⟨by decide,
    ((duplicate_blocks_collapse
      (configUpdated "tf-notification-group abcde updated" "child" "channel" "monitor"
        "tf-service-abcde" "tf-service-abcde-bar") "group").2.2.2.2.2.2
      "tf-notification-group abcde updated" "child" "channel" "monitor"
      "tf-service-abcde" "tf-service-abcde-bar" (by decide)).2.2.2⟩

end Mackerel
